import Mathlib

set_option maxHeartbeats 1000000
set_option maxRecDepth 8000

namespace CityCode

/-!
Shallow embedding of the `city_code_ingest` core pipeline
(chunker.py, schema_extractor.py, mapper.py, builder.py, validator.py).

Python strings are modelled as Lean `String`, Python ints as `Int`/`Nat`,
Python floats arising from Jaccard ratios as `ℚ` (exact arithmetic on the
small integer counts involved), dicts as insertion-ordered association
lists with Python's first-position/last-value update semantics, and
`list.sort` (a stable sort) as `List.mergeSort` with the corresponding
boolean comparator.
-/

/-! ### Python-style string primitives -/

/-- Python's whitespace class used by `str.strip`, `str.split` and `\s`. -/
def pyIsSpace (c : Char) : Bool :=
  c == ' ' || c == '\t' || c == '\n' || c == '\r' || c == '\x0b' || c == '\x0c'

/-- Regex word character class, as used by the `\b` boundary. -/
def isWordChar (c : Char) : Bool :=
  c.isAlpha || c.isDigit || c == '_'

def pyStripList (l : List Char) : List Char :=
  ((l.dropWhile pyIsSpace).reverse.dropWhile pyIsSpace).reverse

/-- Python `str.strip()`. -/
def pyStrip (s : String) : String := ⟨pyStripList s.data⟩

/-- Python `str.lower()` (ASCII, the range relevant to this pipeline). -/
def pyLower (s : String) : String := ⟨s.data.map Char.toLower⟩

/-- Python `str.upper()` (ASCII). -/
def pyUpper (s : String) : String := ⟨s.data.map Char.toUpper⟩

/-- Python `str.replace(" ", "")`. -/
def removeSpaces (s : String) : String := ⟨s.data.filter (fun c => !(c == ' '))⟩

/-- Python `str.replace("–", "-")` (the en dash is a single character). -/
def replaceEnDash (s : String) : String :=
  ⟨s.data.map (fun c => if c == '–' then '-' else c)⟩

/-- Whether `pat` occurs as a contiguous substring (Python's `in`). -/
def listInfixB : List Char → List Char → Bool
  | pat, [] => pat.isEmpty
  | pat, c :: cs => pat.isPrefixOf (c :: cs) || listInfixB pat cs

def strContains (s pat : String) : Bool := listInfixB pat.data s.data

/-- Python `str.startswith`. -/
def pyStartsWith (s pre : String) : Bool := pre.data.isPrefixOf s.data

/-- Python `str.split()` (split on whitespace runs, dropping empties). -/
def wordsAux : List Char → List Char → List (List Char)
  | [], acc => if acc.isEmpty then [] else [acc.reverse]
  | c :: cs, acc =>
    if pyIsSpace c then
      if acc.isEmpty then wordsAux cs [] else acc.reverse :: wordsAux cs []
    else wordsAux cs (c :: acc)

def pySplitWs (s : String) : List String := (wordsAux s.data []).map (fun l => ⟨l⟩)

/-- Maximal alphanumeric runs, as `re.findall(r"[A-Za-z0-9]+", text)`. -/
def runsAux : List Char → List Char → List (List Char)
  | [], acc => if acc.isEmpty then [] else [acc.reverse]
  | c :: cs, acc =>
    if c.isAlphanum then runsAux cs (c :: acc)
    else if acc.isEmpty then runsAux cs [] else acc.reverse :: runsAux cs []

/-- mapper._tokenize: alphanumeric runs, case-folded. -/
def pyTokenize (s : String) : List String :=
  (runsAux s.data []).map (fun l => ⟨l.map Char.toLower⟩)

/-- First-occurrence deduplication (Python `dict.fromkeys` / set insertion). -/
def dedupFirstAux [DecidableEq α] (seen : List α) : List α → List α
  | [] => []
  | a :: rest =>
    if a ∈ seen then dedupFirstAux seen rest
    else a :: dedupFirstAux (a :: seen) rest

def dedupF [DecidableEq α] (l : List α) : List α := dedupFirstAux [] l

def digitsVal (l : List Char) : Nat :=
  l.foldl (fun acc c => 10 * acc + (c.toNat - '0'.toNat)) 0

/-- First maximal digit run of a string, as `re.search(r"\d+", s)`. -/
def firstDigitRun : List Char → Option (List Char)
  | [] => none
  | c :: cs => if c.isDigit then some (c :: cs.takeWhile Char.isDigit) else firstDigitRun cs

/-- mapper._extract_digits: value of the first digit run, if any. -/
def pyExtractDigits (s : String) : Option Nat := (firstDigitRun s.data).map digitsVal

/-- Split on `re.split(r",\s*", s)`: a comma eats the whitespace run that
follows it (the boolean flag records that such a run is being skipped). -/
def splitCommaAux : List Char → List Char → Bool → List (List Char)
  | [], acc, _ => [acc.reverse]
  | c :: cs, acc, skipWs =>
    if skipWs && pyIsSpace c then splitCommaAux cs acc true
    else if c == ',' then acc.reverse :: splitCommaAux cs [] true
    else splitCommaAux cs (c :: acc) false

def pySplitComma (s : String) : List String :=
  (splitCommaAux s.data [] false).map (fun l => ⟨l⟩)

/-- Python `part.split("-", 1)` for a part known to contain a dash. -/
def splitDash (s : String) : String × String :=
  (⟨s.data.takeWhile (fun c => !(c == '-'))⟩,
   ⟨(s.data.dropWhile (fun c => !(c == '-'))).drop 1⟩)

/-- Python `str.rstrip(":")`. -/
def rstripColon (s : String) : String :=
  ⟨(s.data.reverse.dropWhile (fun c => c == ':')).reverse⟩

/-- Python `s.splitlines()[0]` (first line of a nonempty string). -/
def firstLine (s : String) : String :=
  ⟨s.data.takeWhile (fun c => !(c == '\n' || c == '\r'))⟩

/-- Boolean code-point order on strings, used for Python `sorted`. -/
def strLtB (a b : String) : Bool := decide (a < b)

def strLe (a b : String) : Bool := !(strLtB b a)

/-! ### Chunker (chunker.py) -/

/-- Case-insensitive literal-prefix matcher; returns the rest of the input. -/
def matchCi : List Char → List Char → Option (List Char)
  | [], l => some l
  | _ :: _, [] => none
  | p :: ps, c :: cs => if c.toLower == p.toLower then matchCi ps cs else none

/-- Matcher for TITLE_PATTERN / CHAPTER_PATTERN:
`^Word\s+(?P<num>\d+)\s*[-:\.]?\s*(?P<name>.*)$` (case-insensitive).
Returns the numeric group and the raw name group. -/
def headerMatch (word : List Char) (line : String) : Option (Nat × String) :=
  match matchCi word line.data with
  | none => none
  | some rest =>
    let ws := rest.takeWhile pyIsSpace
    if ws.isEmpty then none
    else
      let r1 := rest.drop ws.length
      let ds := r1.takeWhile Char.isDigit
      if ds.isEmpty then none
      else
        let r2 := r1.drop ds.length
        let r3 := r2.dropWhile pyIsSpace
        let r4 :=
          match r3 with
          | c :: cs => if c == '-' || c == ':' || c == '.' then cs else r3
          | [] => r3
        some (digitsVal ds, ⟨r4.dropWhile pyIsSpace⟩)

def titleMatch (line : String) : Option (Nat × String) := headerMatch "title".data line

def chapterMatch (line : String) : Option (Nat × String) := headerMatch "chapter".data line

/-- Body of SECTION_PATTERN after the optional `Section\s+` prefix:
`(?P<id>\d{1,2}\.\d{1,2}\.\d{1,3})\s+[-:]?\s*(?P<title>.+)$`, with the
backtracking of the greedy quantifiers resolved deterministically. -/
def sectionBody (cs : List Char) : Option (String × String) :=
  let d1 := cs.takeWhile Char.isDigit
  if d1.isEmpty || decide (d1.length > 2) then none
  else
    match cs.drop d1.length with
    | '.' :: r1 =>
      let d2 := r1.takeWhile Char.isDigit
      if d2.isEmpty || decide (d2.length > 2) then none
      else
        match r1.drop d2.length with
        | '.' :: r2 =>
          let d3 := r2.takeWhile Char.isDigit
          if d3.isEmpty || decide (d3.length > 3) then none
          else
            let idStr : String := ⟨d1 ++ '.' :: (d2 ++ '.' :: d3)⟩
            let rest := r2.drop d3.length
            let w := rest.takeWhile pyIsSpace
            if w.isEmpty then none
            else
              match rest.drop w.length with
              | [] =>
                if decide (w.length ≥ 2) then some (idStr, ⟨[w.getLastD ' ']⟩) else none
              | c :: cs₂ =>
                let t₂ := if c == '-' || c == ':' then cs₂ else c :: cs₂
                let t₃ := t₂.dropWhile pyIsSpace
                if t₃.isEmpty then
                  match t₂ with
                  | [] => some (idStr, ⟨[c]⟩)
                  | _ => some (idStr, ⟨[t₂.getLastD ' ']⟩)
                else some (idStr, ⟨t₃⟩)
        | _ => none
    | _ => none

/-- SECTION_PATTERN: optional case-insensitive `Section\s+` prefix, then
`sectionBody`; on failure of the prefixed attempt the engine retries the
body at the start of the line. -/
def sectionMatch (line : String) : Option (String × String) :=
  match matchCi "section".data line.data with
  | some rest =>
    let ws := rest.takeWhile pyIsSpace
    if ws.isEmpty then sectionBody line.data
    else
      match sectionBody (rest.drop ws.length) with
      | some r => some r
      | none => sectionBody line.data
  | none => sectionBody line.data

/-- The section dict produced by `_SectionAccumulator.to_dict`. -/
structure ChunkSection where
  sectionId : String
  heading : String
  body : String
  titleNumber : Option Int
  titleName : Option String
  chapterNumber : Option Int
  chapterName : Option String
  breadcrumb : String
deriving Repr, DecidableEq, Inhabited

/-- The `_SectionAccumulator` dataclass (body kept as its list of lines). -/
structure SectionAcc where
  sectionId : String
  heading : String
  titleNumber : Option Int
  titleName : Option String
  chapterNumber : Option Int
  chapterName : Option String
  breadcrumb : String
  bodyLines : List String
deriving Repr, DecidableEq, Inhabited

/-- `_SectionAccumulator.to_dict`: the body is the newline join of the
accumulated lines, stripped. -/
def accToDict (a : SectionAcc) : ChunkSection :=
  { sectionId := a.sectionId
    heading := a.heading
    body := pyStrip (String.intercalate "\n" a.bodyLines)
    titleNumber := a.titleNumber
    titleName := a.titleName
    chapterNumber := a.chapterNumber
    chapterName := a.chapterName
    breadcrumb := a.breadcrumb }

/-- chunker._build_breadcrumb. -/
def buildBreadcrumbC (tn : Option Int) (tname : Option String)
    (cn : Option Int) (cname : Option String) (sid stitle : String) : String :=
  let titleParts : List String :=
    match tn with
    | some n =>
      ["Title " ++ toString n ++
        (match tname with
         | some s => if s = "" then "" else ": " ++ s
         | none => "")]
    | none => []
  let chapterParts : List String :=
    match cn with
    | some n =>
      ["Chapter " ++ toString n ++
        (match cname with
         | some s => if s = "" then "" else ": " ++ s
         | none => "")]
    | none => []
  let sectionLabel :=
    "Section " ++ sid ++ (if stitle = "" then "" else ": " ++ stitle)
  String.intercalate " > " (titleParts ++ chapterParts ++ [sectionLabel])

/-- Main loop of `split_sections`, carrying the open accumulator and the
current title/chapter context. -/
def splitGo : List String → Option SectionAcc →
    Option Int × Option String → Option Int × Option String → List SectionAcc
  | [], cur, _, _ =>
    match cur with
    | none => []
    | some c => [c]
  | line :: rest, cur, ct, cc =>
    match titleMatch line with
    | some (num, rawName) =>
      let name := pyStrip rawName
      splitGo rest cur (some (Int.ofNat num), if name = "" then none else some name) cc
    | none =>
      match chapterMatch line with
      | some (num, rawName) =>
        let name := pyStrip rawName
        splitGo rest cur ct (some (Int.ofNat num), if name = "" then none else some name)
      | none =>
        match sectionMatch line with
        | some (sid, rawTitle) =>
          let tf := pyStrip rawTitle
          let acc : SectionAcc :=
            { sectionId := sid
              heading := pyStrip ("Section " ++ sid ++ " " ++ tf)
              titleNumber := ct.1
              titleName := ct.2
              chapterNumber := cc.1
              chapterName := cc.2
              breadcrumb := buildBreadcrumbC ct.1 ct.2 cc.1 cc.2 sid tf
              bodyLines := [] }
          match cur with
          | none => splitGo rest (some acc) ct cc
          | some c => c :: splitGo rest (some acc) ct cc
        | none =>
          match cur with
          | none => splitGo rest none ct cc
          | some c => splitGo rest (some { c with bodyLines := c.bodyLines ++ [line] }) ct cc

def splitSectionsAcc (lines : List String) : List SectionAcc :=
  splitGo lines none (none, none) (none, none)

/-- chunker.split_sections. -/
def splitSections (lines : List String) : List ChunkSection :=
  (splitSectionsAcc lines).map accToDict

/-- A line consumed as a heading by the segmenter loop. -/
def isHeadingLine (l : String) : Bool :=
  (titleMatch l).isSome || (chapterMatch l).isSome || (sectionMatch l).isSome

/-- The suffix of the input strictly after the first section-heading line,
skipping in the same order the segmenter does. -/
def afterFirstSection : List String → List String
  | [] => []
  | l :: ls =>
    if (titleMatch l).isSome then afterFirstSection ls
    else if (chapterMatch l).isSome then afterFirstSection ls
    else if (sectionMatch l).isSome then ls
    else afterFirstSection ls

/-! ### C7: body-line reconstruction -/

lemma splitGo_open_bodies (lines : List String) :
    ∀ (c : SectionAcc) (ct cc : Option Int × Option String),
      (splitGo lines (some c) ct cc).flatMap SectionAcc.bodyLines =
        c.bodyLines ++ lines.filter (fun l => !isHeadingLine l) := by
  induction lines with
  | nil =>
    intro c ct cc
    simp [splitGo]
  | cons line rest ih =>
    intro c ct cc
    by_cases ht : (titleMatch line).isSome
    · obtain ⟨⟨num, rawName⟩, hm⟩ := Option.isSome_iff_exists.mp ht
      simp only [splitGo, hm, List.filter_cons, isHeadingLine, ht, Bool.true_or,
        Bool.not_true, ih]
      simp
    · rw [Option.not_isSome_iff_eq_none] at ht
      by_cases hc : (chapterMatch line).isSome
      · obtain ⟨⟨num, rawName⟩, hm⟩ := Option.isSome_iff_exists.mp hc
        simp only [splitGo, ht, hm, List.filter_cons, isHeadingLine, hc, Bool.true_or,
          Bool.or_true, Bool.not_true, ih]
        simp
      · rw [Option.not_isSome_iff_eq_none] at hc
        by_cases hs : (sectionMatch line).isSome
        · obtain ⟨⟨sid, rawTitle⟩, hm⟩ := Option.isSome_iff_exists.mp hs
          simp only [splitGo, ht, hc, hm, List.flatMap_cons, ih, List.filter_cons,
            isHeadingLine, hs, Bool.or_true, Bool.not_true]
          simp
        · rw [Option.not_isSome_iff_eq_none] at hs
          simp only [splitGo, ht, hc, hs, ih, List.filter_cons, isHeadingLine,
            Option.isSome_none, Bool.or_self, Bool.not_false]
          simp

lemma splitGo_closed_bodies (lines : List String) :
    ∀ (ct cc : Option Int × Option String),
      (splitGo lines none ct cc).flatMap SectionAcc.bodyLines =
        (afterFirstSection lines).filter (fun l => !isHeadingLine l) := by
  induction lines with
  | nil =>
    intro ct cc
    simp [splitGo, afterFirstSection]
  | cons line rest ih =>
    intro ct cc
    by_cases ht : (titleMatch line).isSome
    · obtain ⟨⟨num, rawName⟩, hm⟩ := Option.isSome_iff_exists.mp ht
      simp only [splitGo, hm, afterFirstSection, ht, if_true, ih]
      simp
    · rw [Option.not_isSome_iff_eq_none] at ht
      have ht' : (titleMatch line).isSome = false := by simp [ht]
      by_cases hc : (chapterMatch line).isSome
      · obtain ⟨⟨num, rawName⟩, hm⟩ := Option.isSome_iff_exists.mp hc
        simp only [splitGo, ht, hm, afterFirstSection, ht', hc, if_true, Bool.false_eq_true,
          if_false, ih]
        simp
      · rw [Option.not_isSome_iff_eq_none] at hc
        have hc' : (chapterMatch line).isSome = false := by simp [hc]
        by_cases hs : (sectionMatch line).isSome
        · obtain ⟨⟨sid, rawTitle⟩, hm⟩ := Option.isSome_iff_exists.mp hs
          simp only [splitGo, ht, hc, hm, afterFirstSection, ht', hc', hs, if_true,
            Bool.false_eq_true, if_false]
          rw [splitGo_open_bodies]
          simp
        · rw [Option.not_isSome_iff_eq_none] at hs
          have hs' : (sectionMatch line).isSome = false := by simp [hs]
          simp only [splitGo, ht, hc, hs, afterFirstSection, ht', hc', hs',
            Bool.false_eq_true, if_false, ih]
          simp

/-- C7: for any line sequence, concatenating the produced sections' body
lines in order reproduces exactly the non-heading lines of the input that
follow the first section heading, in the same order; lines preceding the
first heading appear in no section body. -/
theorem claim_C7_body_reconstruction (lines : List String) :
    (splitSectionsAcc lines).flatMap SectionAcc.bodyLines =
      (afterFirstSection lines).filter (fun l => !isHeadingLine l) := by
  rw [splitSectionsAcc, splitGo_closed_bodies]

/-! ### Layout and item data model -/

structure Block where
  text : String
deriving Repr, DecidableEq, Inhabited

structure Page where
  pageNumber : Int
  blocks : List Block
deriving Repr, DecidableEq, Inhabited

structure Layout where
  pages : List Page
deriving Repr, DecidableEq, Inhabited

/-- The `CatalogItem` dataclass of schema_extractor.py. -/
structure CatItem where
  id : String
  text : String
  page : Int
  span : List Int
  type : String
deriving Repr, DecidableEq, Inhabited

/-- A catalog-item dict as carried in the JSON catalog; `page` and `span`
are optional because the validator explicitly checks for their absence. -/
structure Item where
  id : String
  text : String
  page : Option Int
  span : Option (List Int)
  type : String
deriving Repr, DecidableEq, Inhabited

/-- `CatalogItem.to_dict`. -/
def catItemToDict (it : CatItem) : Item :=
  { id := it.id, text := pyStrip it.text, page := some it.page,
    span := some it.span, type := it.type }

structure Catalog where
  RAD : List Item
  PO : List Item
  EAD : List Item
deriving Repr, DecidableEq, Inhabited

/-! ### Item cataloger (schema_extractor.py, regex strategy)

CATALOG_ITEM_RE is `\b((?:RAD|PO|EAD)\s*\d+[\.\d]*)\b` with IGNORECASE;
`finditer` semantics (leftmost match, greedy quantifiers with word-boundary
backtracking, non-overlapping continuation) are resolved explicitly. -/

def isWordOpt : Option Char → Bool
  | none => false
  | some c => isWordChar c

/-- Word boundary between an adjacent character pair (string edges count as
non-word). -/
def boundaryOkB (a b : Option Char) : Bool := isWordOpt a != isWordOpt b

/-- The alternation `RAD|PO|EAD` (case-insensitive), leftmost alternative
first; returns the consumed length and the rest. -/
def tryCiAlts (l : List Char) : Option (Nat × List Char) :=
  match matchCi "rad".data l with
  | some r => some (3, r)
  | none =>
    match matchCi "po".data l with
    | some r => some (2, r)
    | none =>
      match matchCi "ead".data l with
      | some r => some (3, r)
      | none => none

/-- Largest prefix length `k ≥ 1` of the digit-or-dot block that ends at a
word boundary (the backtracking of the trailing greedy quantifiers). -/
def findEndK (B : List Char) (after : Option Char) : Nat → Option Nat
  | 0 => none
  | k + 1 =>
    if boundaryOkB (B.get? k) (if k + 1 < B.length then B.get? (k + 1) else after) then
      some (k + 1)
    else findEndK B after k

/-- Attempt CATALOG_ITEM_RE at the start of `l`, where `prev` is the
character just before `l` in the scanned text; returns the match length. -/
def matchCatAt (prev : Option Char) (l : List Char) : Option Nat :=
  if isWordOpt prev then none
  else
    match tryCiAlts l with
    | none => none
    | some (p, r1) =>
      let ws := r1.takeWhile pyIsSpace
      let r2 := r1.drop ws.length
      match r2 with
      | [] => none
      | c :: _ =>
        if !c.isDigit then none
        else
          let B := r2.takeWhile (fun ch => ch.isDigit || ch == '.')
          match findEndK B (r2.get? B.length) B.length with
          | none => none
          | some k => some (p + ws.length + k)

/-- Left-to-right non-overlapping scan (`finditer`), fuelled by the text
length; each step advances the position by at least one. -/
def scanCat (text : List Char) : Nat → Nat → List (Nat × Nat)
  | 0, _ => []
  | fuel + 1, pos =>
    if decide (pos ≥ text.length) then []
    else
      match matchCatAt (if pos == 0 then none else text.get? (pos - 1)) (text.drop pos) with
      | some len => (pos, pos + len) :: scanCat text fuel (pos + len)
      | none => scanCat text fuel (pos + 1)

def finditerCat (text : List Char) : List (Nat × Nat) :=
  scanCat text (text.length + 1) 0

/-- schema_extractor._extract_via_regex, before deduplication: the raw item
stream in document scan order, with the per-page running character cursor. -/
def extractViaRegex (pages : List Page) : List CatItem :=
  pages.flatMap (fun page =>
    (page.blocks.foldl
      (fun (st : List CatItem × Nat) block =>
        let text := pyStrip block.text
        if text = "" then (st.1, st.2 + 1)
        else
          let ms := finditerCat text.data
          if ms.isEmpty then (st.1, st.2 + text.data.length + 1)
          else
            (st.1 ++ ms.map (fun se =>
              let matched : String := ⟨(text.data.drop se.1).take (se.2 - se.1)⟩
              let identifier := pyUpper (removeSpaces matched)
              let itemType :=
                if pyStartsWith identifier "RAD" then "RAD"
                else if pyStartsWith identifier "PO" then "PO"
                else "EAD"
              { id := identifier, text := text, page := page.pageNumber,
                span := [Int.ofNat (st.2 + se.1), Int.ofNat (st.2 + se.2)],
                type := itemType }),
             st.2 + text.data.length + 1))
      ([], 0)).1)

def catKey (it : CatItem) : String × String := (it.id, it.type)

/-- First-occurrence deduplication by `(id, type)` (the `seen` dict). -/
def dedupCatAux (seen : List (String × String)) : List CatItem → List CatItem
  | [] => []
  | it :: rest =>
    if catKey it ∈ seen then dedupCatAux seen rest
    else it :: dedupCatAux (catKey it :: seen) rest

def dedupCat (l : List CatItem) : List CatItem := dedupCatAux [] l

/-- The dict list returned by `_extract_via_regex`. -/
def extractedItems (pages : List Page) : List Item :=
  (dedupCat (extractViaRegex pages)).map catItemToDict

/-- Sort key page for bucket ordering; extractor items always carry a page. -/
def keyPage (it : Item) : Int := it.page.getD 0

/-- Comparator for `values.sort(key=lambda entry: (entry["page"], entry["id"]))`. -/
def pageIdLe (a b : Item) : Bool :=
  decide (keyPage a < keyPage b) || (decide (keyPage a = keyPage b) && strLe a.id b.id)

/-- schema_extractor.catalog_items with the default (regex) strategy; the
`use_llm` strategy is an external call that falls back to this one on any
failure.  The source buckets by `item["type"]` (always one of the three
fixed tags) preserving order, then sorts each bucket. -/
def catalogItems (layout : Layout) : Catalog :=
  let items := extractedItems layout.pages
  { RAD := (items.filter (fun it => it.type == "RAD")).mergeSort pageIdLe
    PO := (items.filter (fun it => it.type == "PO")).mergeSort pageIdLe
    EAD := (items.filter (fun it => it.type == "EAD")).mergeSort pageIdLe }

/-! ### C8: deduplication and bucket ordering -/

lemma strLe_iff (a b : String) : strLe a b = true ↔ a ≤ b := by
  simp [strLe, strLtB, not_lt]

lemma pageIdLe_iff (a b : Item) :
    pageIdLe a b = true ↔
      (keyPage a < keyPage b ∨ (keyPage a = keyPage b ∧ a.id ≤ b.id)) := by
  simp [pageIdLe, strLe_iff]

lemma pageIdLe_trans (a b c : Item) :
    pageIdLe a b → pageIdLe b c → pageIdLe a c := by
  intro hab hbc
  rw [pageIdLe_iff] at hab hbc ⊢
  rcases hab with h₁ | ⟨h₁, h₁'⟩ <;> rcases hbc with h₂ | ⟨h₂, h₂'⟩
  · exact Or.inl (lt_trans h₁ h₂)
  · exact Or.inl (h₂ ▸ h₁)
  · exact Or.inl (h₁ ▸ h₂)
  · exact Or.inr ⟨h₁.trans h₂, le_trans h₁' h₂'⟩

lemma pageIdLe_total (a b : Item) : pageIdLe a b || pageIdLe b a := by
  rcases lt_trichotomy (keyPage a) (keyPage b) with h | h | h
  · simp [pageIdLe_iff, h]
  · rcases le_total a.id b.id with h' | h'
    · simp [pageIdLe_iff, h, h']
    · simp [pageIdLe_iff, h, h']
  · simp [pageIdLe_iff, h]

lemma dedupCatAux_spec (l : List CatItem) :
    ∀ (seen : List (String × String)) (y : CatItem), y ∈ dedupCatAux seen l →
      catKey y ∉ seen ∧ l.find? (fun z => catKey z == catKey y) = some y := by
  induction l with
  | nil => intro seen y hy; simp [dedupCatAux] at hy
  | cons it rest ih =>
    intro seen y hy
    rw [dedupCatAux] at hy
    by_cases hmem : catKey it ∈ seen
    · rw [if_pos hmem] at hy
      obtain ⟨hns, hf⟩ := ih seen y hy
      have hne : (catKey it == catKey y) = false := by
        rw [beq_eq_false_iff_ne]
        intro he
        exact hns (he ▸ hmem)
      refine ⟨hns, ?_⟩
      rw [List.find?_cons, hne, hf]
    · rw [if_neg hmem] at hy
      rcases List.mem_cons.mp hy with rfl | hy'
      · exact ⟨hmem, by rw [List.find?_cons, beq_self_eq_true]⟩
      · obtain ⟨hns, hf⟩ := ih (catKey it :: seen) y hy'
        have hns' : catKey y ∉ seen := fun h => hns (List.mem_cons_of_mem _ h)
        have hne : (catKey it == catKey y) = false := by
          rw [beq_eq_false_iff_ne]
          intro he
          exact hns (he ▸ List.mem_cons_self _ _)
        refine ⟨hns', ?_⟩
        rw [List.find?_cons, hne, hf]

lemma dedupCatAux_pairwise (l : List CatItem) :
    ∀ seen : List (String × String),
      (dedupCatAux seen l).Pairwise (fun a b => catKey a ≠ catKey b) := by
  induction l with
  | nil => intro seen; simp [dedupCatAux]
  | cons it rest ih =>
    intro seen
    rw [dedupCatAux]
    by_cases hmem : catKey it ∈ seen
    · rw [if_pos hmem]; exact ih seen
    · rw [if_neg hmem]
      refine List.Pairwise.cons ?_ (ih _)
      intro y hy
      have := (dedupCatAux_spec rest _ y hy).1
      intro he
      exact this (he ▸ List.mem_cons_self _ _)

lemma extractedItems_pairwise_key (pages : List Page) :
    (extractedItems pages).Pairwise (fun a b => (a.id, a.type) ≠ (b.id, b.type)) := by
  rw [extractedItems, List.pairwise_map]
  have h := dedupCatAux_pairwise (extractViaRegex pages) []
  refine h.imp ?_
  intro a b hab
  simpa [catItemToDict, catKey, Prod.ext_iff] using
    (by simpa [catKey, Prod.ext_iff] using hab : ¬(a.id = b.id ∧ a.type = b.type))

lemma bucket_mem_type (items : List Item) (t : String) (x : Item)
    (hx : x ∈ (items.filter (fun it => it.type == t)).mergeSort pageIdLe) :
    x ∈ items ∧ x.type = t := by
  have hx' := List.mem_mergeSort.mp hx
  exact ⟨List.mem_of_mem_filter hx', by simpa using List.of_mem_filter hx'⟩

lemma bucket_pairwise_key (items : List Item) (t : String)
    (h : items.Pairwise (fun a b => (a.id, a.type) ≠ (b.id, b.type))) :
    ((items.filter (fun it => it.type == t)).mergeSort pageIdLe).Pairwise
      (fun a b => (a.id, a.type) ≠ (b.id, b.type)) := by
  have hperm := List.mergeSort_perm (items.filter (fun it => it.type == t)) pageIdLe
  exact ((hperm.pairwise_iff (fun hab he => hab he.symm)).mpr
    (h.sublist (List.filter_sublist _)))

lemma type_ne_key {t₁ t₂ : String} {a b : Item} (ha : a.type = t₁) (hb : b.type = t₂)
    (h : t₁ ≠ t₂) : (a.id, a.type) ≠ (b.id, b.type) := by
  intro he
  apply h
  rw [← ha, ← hb]
  exact congrArg Prod.snd he

lemma bucket_sorted (items : List Item) (t : String) :
    ((items.filter (fun it => it.type == t)).mergeSort pageIdLe).Pairwise
      (fun a b => pageIdLe a b = true) :=
  List.sorted_mergeSort pageIdLe_trans pageIdLe_total _

/-- C8: the catalog contains at most one item per `(id, type)` pair; the
kept item is exactly the first occurrence of its key in the raw scan
stream (later duplicates dropped, not merged); and each of the three type
buckets is sorted by `(page, id)`. -/
theorem claim_C8_catalog_dedup_sorted (layout : Layout) :
    (∀ y ∈ dedupCat (extractViaRegex layout.pages),
        (extractViaRegex layout.pages).find? (fun z => catKey z == catKey y) = some y)
    ∧ ((catalogItems layout).RAD ++ (catalogItems layout).PO ++
        (catalogItems layout).EAD).Pairwise
        (fun a b => (a.id, a.type) ≠ (b.id, b.type))
    ∧ (catalogItems layout).RAD.Pairwise (fun a b => pageIdLe a b = true)
    ∧ (catalogItems layout).PO.Pairwise (fun a b => pageIdLe a b = true)
    ∧ (catalogItems layout).EAD.Pairwise (fun a b => pageIdLe a b = true) := by
  have hkeys := extractedItems_pairwise_key layout.pages
  refine ⟨fun y hy => (dedupCatAux_spec _ [] y hy).2, ?_, ?_, ?_, ?_⟩
  · rw [List.pairwise_append]
    refine ⟨?_, ?_, ?_⟩
    · rw [List.pairwise_append]
      refine ⟨bucket_pairwise_key _ _ hkeys, bucket_pairwise_key _ _ hkeys, ?_⟩
      · intro a ha b hb
        exact type_ne_key (bucket_mem_type _ _ a ha).2 (bucket_mem_type _ _ b hb).2
          (by decide)
    · exact bucket_pairwise_key _ _ hkeys
    · intro a ha b hb
      rcases List.mem_append.mp ha with ha' | ha'
      · exact type_ne_key (bucket_mem_type _ _ a ha').2 (bucket_mem_type _ _ b hb).2
          (by decide)
      · exact type_ne_key (bucket_mem_type _ _ a ha').2 (bucket_mem_type _ _ b hb).2
          (by decide)
  · exact bucket_sorted _ _
  · exact bucket_sorted _ _
  · exact bucket_sorted _ _

/-! ### Cross-reference linker (mapper.py) -/

/-- Python dict insertion: a new key is appended, an existing key keeps its
position and takes the new value. -/
def pyDictInsert (d : List (String × α)) (k : String) (v : α) : List (String × α) :=
  if d.any (fun p => p.1 == k) then
    d.map (fun p => if p.1 == k then (k, v) else p)
  else d ++ [(k, v)]

/-- The dict comprehension over catalog items, keyed by id. -/
def pyDictOfItems (items : List Item) : List (String × Item) :=
  items.foldl (fun d it => pyDictInsert d it.id it) []

def pyGet (d : List (String × α)) (k : String) : Option α :=
  (d.find? (fun p => p.1 == k)).map (fun p => p.2)

/-- `defaultdict(list)` extension `mapping[k].extend(vs)`. -/
def ddExtend (d : List (String × List String)) (k : String) (vs : List String) :
    List (String × List String) :=
  if d.any (fun p => p.1 == k) then
    d.map (fun p => if p.1 == k then (p.1, p.2 ++ vs) else p)
  else d ++ [(k, vs)]

/-- mapper._expand_po_tokens. -/
def expandPoTokens (tokenStr : String) : List String :=
  let t := replaceEnDash tokenStr
  let tokens := (pySplitComma t).foldl
    (fun acc part =>
      let p := pyStrip part
      if p = "" then acc
      else if p.data.contains '-' then
        let lr := splitDash p
        match pyExtractDigits lr.1, pyExtractDigits lr.2 with
        | some ln, some rn =>
          acc ++ (List.range' ln (rn + 1 - ln)).map (fun num => "PO" ++ toString num)
        | _, _ =>
          match pyExtractDigits p with
          | some num => acc ++ ["PO" ++ toString num]
          | none => acc
      else
        match pyExtractDigits p with
        | some num => acc ++ ["PO" ++ toString num]
        | none => acc)
    []
  if tokens.isEmpty then [pyUpper (removeSpaces t)] else tokens

/-- Loop state of mapper._parse_correspondence_table. -/
structure TableState where
  mapping : List (String × List String)
  lastPo : Option (List String)
  inTable : Bool
  blankRows : Nat
deriving Repr, DecidableEq, Inhabited

def tableStep (st : TableState) (block : Block) : TableState :=
  let text := pyStrip block.text
  if text = "" then
    let blanks := st.blankRows + 1
    if st.inTable && decide (blanks > 5) then
      { st with blankRows := blanks, inTable := false }
    else { st with blankRows := blanks }
  else
    let lowered := pyLower text
    if strContains lowered "corresponding po" then
      { st with inTable := true, blankRows := 0 }
    else if !st.inTable then st
    else
      let st := { st with blankRows := 0 }
      if pyStartsWith lowered "where accepted" then { st with inTable := false }
      else if pyStartsWith lowered "po" then { st with lastPo := some (expandPoTokens text) }
      else if pyStartsWith lowered "rad" then
        match st.lastPo with
        | some pos =>
          let radId := pyUpper (removeSpaces ((pySplitWs text).headD ""))
          { st with mapping := ddExtend st.mapping radId (pos.filter (fun po => !(po == ""))) }
        | none => st
      else st

/-- The fold over all blocks of all pages, then the final per-key
`dict.fromkeys` deduplication. -/
def parseCorrespondenceTableRaw (layout : Layout) : List (String × List String) :=
  (layout.pages.foldl (fun (st : TableState) (page : Page) => page.blocks.foldl tableStep st)
    { mapping := [], lastPo := none, inTable := false, blankRows := 0 }).mapping

/-- mapper._parse_correspondence_table. -/
def parseCorrespondenceTable (layout : Layout) : List (String × List String) :=
  (parseCorrespondenceTableRaw layout).map (fun p => (p.1, dedupF p.2))

/-- mapper._find_nearby_po: all POs within one page, ids sorted. -/
def findNearbyPo (radItem : Item) (poItems : List (String × Item)) : List String :=
  ((poItems.filter
      (fun p => decide ((p.2.page.getD 0 - radItem.page.getD 0).natAbs ≤ 1))).map
    (fun p => p.1)).mergeSort strLe

/-- Number of distinct shared tokens (`len(a & b)` on Python sets). -/
def interCard (a b : List String) : Nat :=
  ((dedupF a).filter (fun x => b.contains x)).length

/-- Number of distinct tokens overall (`len(a | b)`). -/
def unionCard (a b : List String) : Nat := (dedupF (a ++ b)).length

/-- The Jaccard ratio `len(a & b) / max(len(a | b), 1)` as an exact
rational (`mkRat`, the kernel-reducible constructor of the same value). -/
def jaccard (a b : List String) : ℚ :=
  mkRat (interCard a b) (max (unionCard a b) 1)

/-- One iteration of the `_similar_po` scoring loop: candidates with an
empty token set are skipped, the rest are kept when strictly above 0.1. -/
def poScoreStep (radTokens : List String) (acc : List (String × ℚ)) (p : String × Item) :
    List (String × ℚ) :=
  let poTokens := pyTokenize p.2.text
  if (dedupF poTokens).isEmpty then acc
  else
    let overlap := jaccard radTokens poTokens
    if decide (overlap > mkRat 1 10) then acc ++ [(p.1, overlap)] else acc

/-- mapper._similar_po: Jaccard scores against every PO, keep strictly
above 0.1, stable-sort descending (Python `sort` with `reverse=True` is
stable), take the top three ids. -/
def similarPo (radText : String) (poItems : List (String × Item)) : List String :=
  if radText = "" then []
  else
    let radTokens := pyTokenize radText
    if (dedupF radTokens).isEmpty then []
    else
      let scored := poItems.foldl (poScoreStep radTokens) []
      ((scored.mergeSort (fun a b => decide (b.2 ≤ a.2))).take 3).map (fun p => p.1)

structure EadDetail where
  eadId : String
  text : String
  page : Option Int
  span : Option (List Int)
deriving Repr, DecidableEq, Inhabited

/-- The token-overlap score of `_find_related_ead`: 0.0 when either token
set is empty, else the Jaccard ratio. -/
def eadScore (radItem ead : Item) : ℚ :=
  let radTokens := pyTokenize radItem.text
  if (dedupF radTokens).isEmpty then 0
  else
    let eadTokens := pyTokenize ead.text
    if (dedupF eadTokens).isEmpty then 0
    else jaccard radTokens eadTokens

/-- One iteration of the `_find_related_ead` loop. -/
def eadStep (radItem : Item) (acc : List String × List EadDetail) (p : String × Item) :
    List String × List EadDetail :=
  if decide ((p.2.page.getD 0 - radItem.page.getD 0).natAbs > 1) then acc
  else if decide (eadScore radItem p.2 ≥ mkRat 1 20) then
    (acc.1 ++ [p.1],
     acc.2 ++ [{ eadId := p.1, text := p.2.text, page := p.2.page, span := p.2.span }])
  else acc

/-- mapper._find_related_ead: page within ±1 AND token-overlap ≥ 0.05. -/
def findRelatedEad (radItem : Item) (eadItems : List (String × Item)) :
    List String × List EadDetail :=
  if eadItems.isEmpty then ([], [])
  else eadItems.foldl (eadStep radItem) ([], [])

/-- mapper._format_question. -/
def formatQuestion (radId radText : String) : String :=
  let radSummary := if radText = "" then "" else pyStrip (firstLine radText)
  if radSummary = "" then "Does the development comply with " ++ radId ++ "?"
  else
    "Does the development comply with " ++ radId ++ " (" ++ rstripColon radSummary ++ ")?"

structure PoDetail where
  poId : String
  text : String
  page : Option Int
  span : Option (List Int)
deriving Repr, DecidableEq, Inhabited

structure SourceRef where
  page : Option Int
  span : Option (List Int)
deriving Repr, DecidableEq, Inhabited

structure DecisionPoint where
  radId : String
  radText : String
  question : String
  poLinks : List String
  poDetails : List PoDetail
  eadLinks : List String
  eadDetails : List EadDetail
  sourceRefs : List SourceRef
  noPoApplicable : Bool
deriving Repr, DecidableEq, Inhabited

def mkPoDetail (poId : String) (po : Item) : PoDetail :=
  { poId := poId, text := po.text, page := po.page, span := po.span }

/-- The decision point built for one entry of the RAD dict. -/
def mkDecisionPoint (table : List (String × List String))
    (poItems : List (String × Item)) (eadItems : List (String × Item))
    (radId : String) (radItem : Item) : DecisionPoint :=
  let linked₁ := (pyGet table radId).getD []
  let linked₂ := if linked₁.isEmpty then findNearbyPo radItem poItems else linked₁
  let linked := if linked₂.isEmpty then similarPo radItem.text poItems else linked₂
  let rel := findRelatedEad radItem eadItems
  { radId := radId
    radText := radItem.text
    question := formatQuestion radId radItem.text
    poLinks := linked
    poDetails := linked.filterMap (fun poId => (pyGet poItems poId).map (mkPoDetail poId))
    eadLinks := rel.1
    eadDetails := rel.2
    sourceRefs := [{ page := radItem.page, span := radItem.span }]
    noPoApplicable := linked.isEmpty }

/-- mapper.link_items. -/
def linkItems (catalog : Catalog) (layout : Layout)
    (radPoTable : Option (List (String × List String))) : List DecisionPoint :=
  let radItems := pyDictOfItems catalog.RAD
  let poItems := pyDictOfItems catalog.PO
  let eadItems := pyDictOfItems catalog.EAD
  let table := radPoTable.getD (parseCorrespondenceTable layout)
  (radItems.map (fun p => mkDecisionPoint table poItems eadItems p.1 p.2)).mergeSort
    (fun a b => strLe a.radId b.radId)

/-! ### Generic facts about first-occurrence deduplication -/

lemma mem_dedupFirstAux [DecidableEq α] (l : List α) :
    ∀ (seen : List α) (x : α), x ∈ dedupFirstAux seen l ↔ x ∈ l ∧ x ∉ seen := by
  induction l with
  | nil => intro seen x; simp [dedupFirstAux]
  | cons a rest ih =>
    intro seen x
    rw [dedupFirstAux]
    by_cases hmem : a ∈ seen
    · rw [if_pos hmem, ih]
      constructor
      · rintro ⟨hx, hns⟩
        exact ⟨List.mem_cons_of_mem _ hx, hns⟩
      · rintro ⟨hx, hns⟩
        rcases List.mem_cons.mp hx with rfl | hx'
        · exact absurd hmem hns
        · exact ⟨hx', hns⟩
    · rw [if_neg hmem]
      constructor
      · intro hx
        rcases List.mem_cons.mp hx with rfl | hx'
        · exact ⟨List.mem_cons_self _ _, hmem⟩
        · obtain ⟨h₁, h₂⟩ := (ih _ x).mp hx'
          exact ⟨List.mem_cons_of_mem _ h₁,
            fun h => h₂ (List.mem_cons_of_mem _ h)⟩
      · rintro ⟨hx, hns⟩
        rcases List.mem_cons.mp hx with rfl | hx'
        · exact List.mem_cons_self _ _
        · by_cases hxa : x = a
          · exact hxa ▸ List.mem_cons_self _ _
          · exact List.mem_cons_of_mem _
              ((ih _ x).mpr ⟨hx', by simp [hxa, hns]⟩)

lemma mem_dedupF [DecidableEq α] (l : List α) (x : α) : x ∈ dedupF l ↔ x ∈ l := by
  rw [dedupF, mem_dedupFirstAux]
  simp

lemma nodup_dedupFirstAux [DecidableEq α] (l : List α) :
    ∀ seen : List α, (dedupFirstAux seen l).Nodup := by
  induction l with
  | nil => intro seen; simp [dedupFirstAux]
  | cons a rest ih =>
    intro seen
    rw [dedupFirstAux]
    by_cases hmem : a ∈ seen
    · rw [if_pos hmem]; exact ih seen
    · rw [if_neg hmem]
      refine List.Pairwise.cons ?_ (ih _)
      intro y hy
      have := (mem_dedupFirstAux rest _ y).mp hy
      intro he
      exact this.2 (he ▸ List.mem_cons_self _ _)

lemma nodup_dedupF [DecidableEq α] (l : List α) : (dedupF l).Nodup :=
  nodup_dedupFirstAux l []

lemma dedupFirstAux_pairwise_indexOf [DecidableEq α] (l : List α) :
    ∀ seen : List α,
      (dedupFirstAux seen l).Pairwise (fun a b => l.indexOf a < l.indexOf b) := by
  induction l with
  | nil => intro seen; simp [dedupFirstAux]
  | cons a rest ih =>
    intro seen
    rw [dedupFirstAux]
    by_cases hmem : a ∈ seen
    · rw [if_pos hmem]
      refine (ih seen).imp_of_mem ?_
      intro x y hx hy hxy
      have hxa : x ≠ a := by
        intro he
        exact ((mem_dedupFirstAux rest seen x).mp hx).2 (he ▸ hmem)
      have hya : y ≠ a := by
        intro he
        exact ((mem_dedupFirstAux rest seen y).mp hy).2 (he ▸ hmem)
      rw [List.indexOf_cons_ne _ hxa.symm, List.indexOf_cons_ne _ hya.symm]
      exact Nat.succ_lt_succ hxy
    · rw [if_neg hmem]
      refine List.Pairwise.cons ?_ ?_
      · intro y hy
        have hya : y ≠ a := by
          intro he
          exact ((mem_dedupFirstAux rest _ y).mp hy).2 (he ▸ List.mem_cons_self _ _)
        rw [List.indexOf_cons_self, List.indexOf_cons_ne _ hya.symm]
        exact Nat.succ_pos _
      · refine (ih (a :: seen)).imp_of_mem ?_
        intro x y hx hy hxy
        have hxa : x ≠ a := by
          intro he
          exact ((mem_dedupFirstAux rest _ x).mp hx).2 (he ▸ List.mem_cons_self _ _)
        have hya : y ≠ a := by
          intro he
          exact ((mem_dedupFirstAux rest _ y).mp hy).2 (he ▸ List.mem_cons_self _ _)
        rw [List.indexOf_cons_ne _ hxa.symm, List.indexOf_cons_ne _ hya.symm]
        exact Nat.succ_lt_succ hxy

lemma dedupF_eq_nil_iff [DecidableEq α] (l : List α) : dedupF l = [] ↔ l = [] := by
  constructor
  · intro h
    cases l with
    | nil => rfl
    | cons a rest =>
      exfalso
      have : a ∈ dedupF (a :: rest) := (mem_dedupF _ _).mpr (List.mem_cons_self _ _)
      rw [h] at this
      exact List.not_mem_nil _ this
  · rintro rfl; rfl

/-! ### C3: the no-outcome flag is definitionally tied to the link list -/

lemma linkItems_mem (catalog : Catalog) (layout : Layout)
    (rtab : Option (List (String × List String))) (dp : DecisionPoint)
    (hdp : dp ∈ linkItems catalog layout rtab) :
    ∃ p ∈ pyDictOfItems catalog.RAD,
      dp = mkDecisionPoint (rtab.getD (parseCorrespondenceTable layout))
        (pyDictOfItems catalog.PO) (pyDictOfItems catalog.EAD) p.1 p.2 := by
  rw [linkItems] at hdp
  obtain ⟨p, hp, he⟩ := List.mem_map.mp (List.mem_mergeSort.mp hdp)
  exact ⟨p, hp, he.symm⟩

/-- C3: for every decision point produced by link_items, the
`no_po_applicable` flag is true exactly when `po_links` is empty. -/
theorem claim_C3_flag_iff_no_links (catalog : Catalog) (layout : Layout)
    (rtab : Option (List (String × List String))) :
    ∀ dp ∈ linkItems catalog layout rtab,
      (dp.noPoApplicable = true ↔ dp.poLinks = []) := by
  intro dp hdp
  obtain ⟨p, _, rfl⟩ := linkItems_mem catalog layout rtab dp hdp
  simp only [mkDecisionPoint]
  exact List.isEmpty_iff

/-! ### C4: outcome-token expansion and table-level deduplication -/

/-- C4: the range token and the comma list expand as specified, and every
outcome list stored in the parsed correspondence table is its raw
accumulated expansion with duplicates removed and first-occurrence order
preserved. -/
theorem claim_C4_token_expansion :
    expandPoTokens "PO1-PO3" = ["PO1", "PO2", "PO3"]
    ∧ expandPoTokens "PO4,PO6" = ["PO4", "PO6"]
    ∧ ∀ (layout : Layout) (rad : String) (pos : List String),
        (rad, pos) ∈ parseCorrespondenceTable layout →
          ∃ raw, (rad, raw) ∈ parseCorrespondenceTableRaw layout ∧
            pos = dedupF raw ∧ pos.Nodup ∧ (∀ x, x ∈ pos ↔ x ∈ raw) ∧
            pos.Pairwise (fun a b => raw.indexOf a < raw.indexOf b) := by
  refine ⟨by decide, by decide, ?_⟩
  intro layout rad pos hmem
  rw [parseCorrespondenceTable] at hmem
  obtain ⟨⟨rad', raw⟩, hraw, he⟩ := List.mem_map.mp hmem
  obtain ⟨he₁, he₂⟩ := Prod.mk.injEq .. ▸ he
  refine ⟨raw, he₁ ▸ hraw, he₂.symm, ?_, ?_, ?_⟩
  · rw [← he₂]; exact nodup_dedupF raw
  · intro x; rw [← he₂]; exact mem_dedupF raw x
  · rw [← he₂]; exact dedupFirstAux_pairwise_indexOf raw []

/-! ### C6: evidence linking requires both conditions -/

lemma mkRat_ten : (mkRat 1 10 : ℚ) = 1 / 10 := by
  rw [Rat.mkRat_eq_divInt, Rat.divInt_eq_div]
  norm_num

lemma mkRat_twenty : (mkRat 1 20 : ℚ) = 1 / 20 := by
  rw [Rat.mkRat_eq_divInt, Rat.divInt_eq_div]
  norm_num

lemma jaccard_nil_left (b : List String) : jaccard [] b = 0 := by
  simp [jaccard, interCard, dedupF, dedupFirstAux]

lemma jaccard_nil_right (a : List String) : jaccard a [] = 0 := by
  simp [jaccard, interCard]

lemma eadScore_eq_jaccard (radItem ead : Item) :
    eadScore radItem ead = jaccard (pyTokenize radItem.text) (pyTokenize ead.text) := by
  rw [eadScore]
  by_cases h₁ : (dedupF (pyTokenize radItem.text)).isEmpty
  · rw [if_pos h₁]
    have := (dedupF_eq_nil_iff (pyTokenize radItem.text)).mp (List.isEmpty_iff.mp h₁)
    rw [this, jaccard_nil_left]
  · rw [if_neg h₁]
    by_cases h₂ : (dedupF (pyTokenize ead.text)).isEmpty
    · rw [if_pos h₂]
      have := (dedupF_eq_nil_iff (pyTokenize ead.text)).mp (List.isEmpty_iff.mp h₂)
      rw [this, jaccard_nil_right]
    · rw [if_neg h₂]

/-- The link condition of `_find_related_ead` for one evidence entry. -/
def eadKeep (radItem : Item) (p : String × Item) : Bool :=
  !(decide ((p.2.page.getD 0 - radItem.page.getD 0).natAbs > 1)) &&
    decide (eadScore radItem p.2 ≥ 1 / 20)

lemma eadStep_fold (radItem : Item) (items : List (String × Item)) :
    ∀ acc : List String × List EadDetail,
      (items.foldl (eadStep radItem) acc).1 =
        acc.1 ++ (items.filter (eadKeep radItem)).map Prod.fst := by
  induction items with
  | nil => intro acc; simp
  | cons p rest ih =>
    intro acc
    rw [List.foldl_cons, ih, List.filter_cons]
    by_cases hpage : ((p.2.page.getD 0 - radItem.page.getD 0).natAbs > 1)
    · have : eadKeep radItem p = false := by simp [eadKeep, hpage]
      rw [this]
      simp only [eadStep, decide_eq_true hpage, if_true, Bool.false_eq_true, if_false]
    · by_cases hscore : (eadScore radItem p.2 ≥ 1 / 20)
      · have hk : eadKeep radItem p = true := by
          simp only [eadKeep, Bool.and_eq_true, Bool.not_eq_true', decide_eq_false_iff_not,
            decide_eq_true_eq]
          exact ⟨hpage, hscore⟩
        rw [hk]
        simp only [eadStep, if_true]
        rw [mkRat_twenty, if_neg (fun h => hpage (of_decide_eq_true h)),
          if_pos (decide_eq_true hscore)]
        simp
      · have hk : eadKeep radItem p = false := by
          simp only [eadKeep, Bool.and_eq_false_iff, Bool.not_eq_false', decide_eq_true_eq,
            decide_eq_false_iff_not]
          exact Or.inr hscore
        rw [hk]
        simp only [eadStep, Bool.false_eq_true, if_false]
        rw [mkRat_twenty, if_neg (fun h => hpage (of_decide_eq_true h)),
          if_neg (fun h => hscore (of_decide_eq_true h))]

lemma assoc_nodup_unique {β : Type} {l : List (String × β)} {k : String} {a b : β}
    (hnd : (l.map Prod.fst).Nodup) (h₁ : (k, a) ∈ l) (h₂ : (k, b) ∈ l) : a = b := by
  induction l with
  | nil => exact absurd h₁ (List.not_mem_nil _)
  | cons p rest ih =>
    rw [List.map_cons] at hnd
    rcases List.mem_cons.mp h₁ with rfl | h₁'
    · rcases List.mem_cons.mp h₂ with he | h₂'
      · exact (Prod.mk.injEq .. ▸ he).2.symm
      · exfalso
        exact (List.nodup_cons.mp hnd).1
          (List.mem_map.mpr ⟨(k, b), h₂', rfl⟩)
    · rcases List.mem_cons.mp h₂ with rfl | h₂'
      · exfalso
        exact (List.nodup_cons.mp hnd).1
          (List.mem_map.mpr ⟨(k, a), h₁', rfl⟩)
      · exact ih (List.nodup_cons.mp hnd).2 h₁' h₂'

/-- C6: an evidence item is linked to a requirement's decision point iff
BOTH its page is within one of the requirement's page AND its Jaccard
token-overlap with the requirement text is at least 0.05. -/
theorem claim_C6_evidence_link_iff (radItem : Item) (eadItems : List (String × Item))
    (k : String) (it : Item) (hnd : (eadItems.map Prod.fst).Nodup)
    (hmem : (k, it) ∈ eadItems) :
    k ∈ (findRelatedEad radItem eadItems).1 ↔
      ((it.page.getD 0 - radItem.page.getD 0).natAbs ≤ 1 ∧
        jaccard (pyTokenize radItem.text) (pyTokenize it.text) ≥ 1 / 20) := by
  have hne : eadItems.isEmpty = false := by
    cases eadItems with
    | nil => exact absurd hmem (List.not_mem_nil _)
    | cons p rest => rfl
  rw [findRelatedEad, hne]
  simp only [Bool.false_eq_true, if_false]
  rw [eadStep_fold]
  simp only [List.nil_append]
  constructor
  · intro hk
    obtain ⟨p, hp, hpk⟩ := List.mem_map.mp hk
    obtain ⟨hpmem, hpkeep⟩ := List.mem_filter.mp hp
    have : p = (k, it) := by
      obtain ⟨k', v⟩ := p
      cases hpk
      rw [assoc_nodup_unique hnd hpmem hmem]
    subst this
    rw [eadKeep, Bool.and_eq_true, Bool.not_eq_true', decide_eq_false_iff_not,
      decide_eq_true_eq] at hpkeep
    rw [← eadScore_eq_jaccard]
    exact ⟨Nat.le_of_lt_succ (Nat.lt_succ_of_le (Nat.not_lt.mp hpkeep.1)), hpkeep.2⟩
  · rintro ⟨hpage, hscore⟩
    refine List.mem_map.mpr ⟨(k, it), List.mem_filter.mpr ⟨hmem, ?_⟩, rfl⟩
    rw [eadKeep, Bool.and_eq_true, Bool.not_eq_true', decide_eq_false_iff_not,
      decide_eq_true_eq]
    rw [← eadScore_eq_jaccard] at hscore
    exact ⟨Nat.not_lt.mpr hpage, hscore⟩

/-! ### C5: the lexical-similarity fallback -/

/-- The candidate scores as the specification describes them: Jaccard
similarity of the case-folded alphanumeric token sets against every
catalog outcome, keeping only scores strictly above 0.10, in catalog
iteration order. -/
def scoredSpec (radText : String) (poItems : List (String × Item)) : List (String × ℚ) :=
  (poItems.map (fun p => (p.1, jaccard (pyTokenize radText) (pyTokenize p.2.text)))).filter
    (fun s => decide (s.2 > 1 / 10))

/-- The fallback as the specification describes it: the kept candidates,
stably sorted by descending score (ties keep catalog iteration order),
truncated to the top three. -/
def similarPoSpec (radText : String) (poItems : List (String × Item)) : List String :=
  (((scoredSpec radText poItems).mergeSort (fun a b => decide (b.2 ≤ a.2))).take 3).map
    (fun p => p.1)

lemma poScoreStep_fold (radTokens : List String) (items : List (String × Item)) :
    ∀ acc : List (String × ℚ),
      items.foldl (poScoreStep radTokens) acc =
        acc ++ (items.map (fun p => (p.1, jaccard radTokens (pyTokenize p.2.text)))).filter
          (fun s => decide (s.2 > 1 / 10)) := by
  induction items with
  | nil => intro acc; simp
  | cons p rest ih =>
    intro acc
    rw [List.foldl_cons, ih, List.map_cons, List.filter_cons]
    by_cases hempty : (dedupF (pyTokenize p.2.text)).isEmpty
    · have hz : jaccard radTokens (pyTokenize p.2.text) = 0 := by
        rw [(dedupF_eq_nil_iff _).mp (List.isEmpty_iff.mp hempty), jaccard_nil_right]
      rw [poScoreStep.eq_def]
      simp only [hempty, if_true, hz]
      rw [if_neg (by norm_num)]
    · rw [poScoreStep.eq_def]
      simp only [hempty, Bool.false_eq_true, if_false]
      rw [mkRat_ten]
      by_cases hgt : jaccard radTokens (pyTokenize p.2.text) > 1 / 10
      · rw [if_pos (decide_eq_true hgt), if_pos (decide_eq_true hgt)]
        simp
      · rw [if_neg (fun h => hgt (of_decide_eq_true h)),
          if_neg (fun h => hgt (of_decide_eq_true h))]

lemma scoredSpec_nil_of_tokens_nil (radText : String) (poItems : List (String × Item))
    (h : pyTokenize radText = []) : scoredSpec radText poItems = [] := by
  rw [scoredSpec, List.filter_eq_nil_iff]
  intro s hs
  obtain ⟨p, _, he⟩ := List.mem_map.mp hs
  have : s.2 = 0 := by rw [← he, h, jaccard_nil_left]
  simp [this]

lemma similarPo_eq_spec (radText : String) (poItems : List (String × Item)) :
    similarPo radText poItems = similarPoSpec radText poItems := by
  by_cases hrt : radText = ""
  · subst hrt
    have htok : pyTokenize "" = [] := rfl
    rw [similarPo, if_pos rfl, similarPoSpec, scoredSpec_nil_of_tokens_nil _ _ htok]
    simp
  · rw [similarPo, if_neg hrt]
    by_cases hte : (dedupF (pyTokenize radText)).isEmpty
    · have htok := (dedupF_eq_nil_iff _).mp (List.isEmpty_iff.mp hte)
      simp only [hte, if_true]
      rw [similarPoSpec, scoredSpec_nil_of_tokens_nil _ _ htok]
      simp
    · simp only [hte, Bool.false_eq_true, if_false]
      rw [poScoreStep_fold, List.nil_append, similarPoSpec, scoredSpec]

lemma mem_similarPo (radText : String) (poItems : List (String × Item)) (id : String)
    (hid : id ∈ similarPo radText poItems) :
    ∃ it : Item, (id, it) ∈ poItems ∧
      jaccard (pyTokenize radText) (pyTokenize it.text) > 1 / 10 := by
  rw [similarPo_eq_spec, similarPoSpec] at hid
  obtain ⟨s, hs, hsid⟩ := List.mem_map.mp hid
  have hs' : s ∈ scoredSpec radText poItems :=
    List.mem_mergeSort.mp ((List.take_sublist _ _).mem hs)
  rw [scoredSpec] at hs'
  obtain ⟨hsmem, hspred⟩ := List.mem_filter.mp hs'
  obtain ⟨p, hp, he⟩ := List.mem_map.mp hsmem
  refine ⟨p.2, ?_, ?_⟩
  · have : p.1 = id := by rw [← hsid, ← he]
    rw [← this]
    exact hp
  · have : s.2 = jaccard (pyTokenize radText) (pyTokenize p.2.text) := by rw [← he]
    rw [← this]
    exact of_decide_eq_true hspred

/-- C5: the lexical-similarity fallback computes exactly the spec pipeline
(case-folded alphanumeric tokens, Jaccard on token sets, strictly above
0.10, stable descending sort, top three with ties in catalog order); every
returned id is a catalog outcome scoring strictly above 0.10; at most
three ids are returned in descending-score order; and link_items consults
this fallback only when the correspondence table and the page-proximity
fallback both came up empty. -/
theorem claim_C5_similarity_fallback :
    (∀ (radText : String) (poItems : List (String × Item)),
        similarPo radText poItems = similarPoSpec radText poItems)
    ∧ (∀ (radText : String) (poItems : List (String × Item)),
        (similarPo radText poItems).length ≤ 3)
    ∧ (∀ (radText : String) (poItems : List (String × Item)),
        (((scoredSpec radText poItems).mergeSort (fun a b => decide (b.2 ≤ a.2))).take 3).Pairwise
          (fun a b => b.2 ≤ a.2))
    ∧ (∀ (radText : String) (poItems : List (String × Item)) (id : String),
        id ∈ similarPo radText poItems →
          ∃ it : Item, (id, it) ∈ poItems ∧
            jaccard (pyTokenize radText) (pyTokenize it.text) > 1 / 10)
    ∧ (∀ (catalog : Catalog) (layout : Layout)
        (rtab : Option (List (String × List String))),
        ∀ dp ∈ linkItems catalog layout rtab,
          ∃ p ∈ pyDictOfItems catalog.RAD, dp.radId = p.1 ∧
            dp.poLinks =
              (let linked₁ := (pyGet (rtab.getD (parseCorrespondenceTable layout)) p.1).getD []
               let linked₂ :=
                 if linked₁ = [] then findNearbyPo p.2 (pyDictOfItems catalog.PO) else linked₁
               if linked₂ = [] then similarPo p.2.text (pyDictOfItems catalog.PO)
               else linked₂)) := by
  have hdesc_trans : ∀ a b c : String × ℚ,
      decide (b.2 ≤ a.2) → decide (c.2 ≤ b.2) → decide (c.2 ≤ a.2) := by
    intro a b c h₁ h₂
    exact decide_eq_true (le_trans (of_decide_eq_true h₂) (of_decide_eq_true h₁))
  have hdesc_total : ∀ a b : String × ℚ,
      decide (b.2 ≤ a.2) || decide (a.2 ≤ b.2) := by
    intro a b
    rcases le_total b.2 a.2 with h | h
    · simp [h]
    · simp [h]
  refine ⟨similarPo_eq_spec, ?_, ?_, ?_, ?_⟩
  · intro radText poItems
    rw [similarPo_eq_spec, similarPoSpec, List.length_map]
    exact le_trans (List.length_take_le _ _) (le_refl _)
  · intro radText poItems
    exact ((List.sorted_mergeSort hdesc_trans hdesc_total _).sublist
      (List.take_sublist _ _)).imp (fun h => of_decide_eq_true h)
  · intro radText poItems id hid
    exact mem_similarPo radText poItems id hid
  · intro catalog layout rtab dp hdp
    obtain ⟨p, hp, rfl⟩ := linkItems_mem catalog layout rtab dp hdp
    refine ⟨p, hp, rfl, ?_⟩
    simp only [mkDecisionPoint]
    by_cases h₁ : ((pyGet (rtab.getD (parseCorrespondenceTable layout)) p.1).getD []) = []
    · rw [h₁]
      simp only [List.isEmpty_nil, if_pos rfl, if_true]
      by_cases h₂ : findNearbyPo p.2 (pyDictOfItems catalog.PO) = []
      · rw [h₂]
        simp
      · rw [if_neg h₂]
        have : (findNearbyPo p.2 (pyDictOfItems catalog.PO)).isEmpty = false := by
          rw [← Bool.not_eq_true, List.isEmpty_iff]
          exact h₂
        rw [this]
        simp
    · have : ((pyGet (rtab.getD (parseCorrespondenceTable layout)) p.1).getD []).isEmpty = false := by
        rw [← Bool.not_eq_true, List.isEmpty_iff]
        exact h₁
      simp [this, h₁]

/-! ### C10: po_details are the catalog-resolvable po_links, in order -/

/-- A one-requirement catalog with an empty outcome bucket. -/
def c10cat : Catalog :=
  { RAD := [{ id := "RAD1", text := "RAD1 text", page := some 1,
              span := some [0, 4], type := "RAD" }]
    PO := []
    EAD := [] }

/-- A layout whose correspondence table links RAD1 to the uncataloged PO9. -/
def c10lay : Layout :=
  { pages := [{ pageNumber := 1,
                blocks := [{ text := "Corresponding PO" }, { text := "PO9" },
                           { text := "RAD1 body" }] }] }

unseal List.mergeSort in
/-- C10: for every decision point, `po_details` is exactly the ordered
filter-map of `po_links` through the PO catalog dict, so ids taken from
the correspondence table that are absent from the catalog leave
`po_details` shorter than `po_links` (witnessed concretely). -/
theorem claim_C10_po_details_projection :
    (∀ (catalog : Catalog) (layout : Layout)
        (rtab : Option (List (String × List String))),
        ∀ dp ∈ linkItems catalog layout rtab,
          dp.poDetails = dp.poLinks.filterMap
            (fun poId => (pyGet (pyDictOfItems catalog.PO) poId).map (mkPoDetail poId)))
    ∧ ∃ dp ∈ linkItems c10cat c10lay none, dp.poDetails.length < dp.poLinks.length := by
  constructor
  · intro catalog layout rtab dp hdp
    obtain ⟨p, _, rfl⟩ := linkItems_mem catalog layout rtab dp hdp
    rfl
  · decide

/-! ### Concrete witnesses for the mapper claims -/

def c3cat : Catalog :=
  { RAD := [{ id := "RAD1", text := "fire safety", page := some 1,
              span := some [0, 4], type := "RAD" }]
    PO := [{ id := "PO1", text := "fire exits", page := some 2,
             span := some [5, 8], type := "PO" }]
    EAD := [] }

unseal List.mergeSort in
theorem claim_C3_witness :
    ((linkItems c3cat { pages := [] } none).headD default).noPoApplicable = true ↔
      ((linkItems c3cat { pages := [] } none).headD default).poLinks = [] :=
  claim_C3_flag_iff_no_links c3cat { pages := [] } none _ (by decide)

def c4lay : Layout :=
  { pages := [{ pageNumber := 1,
                blocks := [{ text := "Corresponding PO" }, { text := "PO1-PO2, PO2" },
                           { text := "RAD7 text" }] }] }

theorem claim_C4_witness :
    ∃ raw, ("RAD7", raw) ∈ parseCorrespondenceTableRaw c4lay ∧
      (["PO1", "PO2"] : List String) = dedupF raw ∧
      (["PO1", "PO2"] : List String).Nodup ∧
      (∀ x, x ∈ (["PO1", "PO2"] : List String) ↔ x ∈ raw) ∧
      (["PO1", "PO2"] : List String).Pairwise (fun a b => raw.indexOf a < raw.indexOf b) :=
  claim_C4_token_expansion.2.2 c4lay "RAD7" ["PO1", "PO2"] (by decide)

def c5cat : Catalog :=
  { RAD := [{ id := "RAD1", text := "fire safety plan", page := some 1,
              span := some [0, 4], type := "RAD" }]
    PO := [{ id := "PO1", text := "fire safety requirements", page := some 99,
             span := some [5, 8], type := "PO" }]
    EAD := [] }

unseal Nat.gcd List.mergeSort in
theorem claim_C5_witness :
    (∃ it : Item, ("PO1", it) ∈ pyDictOfItems c5cat.PO ∧
      jaccard (pyTokenize "fire safety plan") (pyTokenize it.text) > 1 / 10)
    ∧ ∃ p ∈ pyDictOfItems c5cat.RAD,
        ((linkItems c5cat { pages := [] } none).headD default).radId = p.1 ∧
        ((linkItems c5cat { pages := [] } none).headD default).poLinks =
          (let linked₁ :=
            (pyGet ((none : Option (List (String × List String))).getD
              (parseCorrespondenceTable { pages := [] })) p.1).getD []
           let linked₂ :=
             if linked₁ = [] then findNearbyPo p.2 (pyDictOfItems c5cat.PO) else linked₁
           if linked₂ = [] then similarPo p.2.text (pyDictOfItems c5cat.PO)
           else linked₂) :=
  ⟨claim_C5_similarity_fallback.2.2.2.1 "fire safety plan" (pyDictOfItems c5cat.PO) "PO1"
      (by decide),
   claim_C5_similarity_fallback.2.2.2.2 c5cat { pages := [] } none _ (by decide)⟩

unseal List.mergeSort in
theorem claim_C6_witness :
    "EAD1" ∈ (findRelatedEad
        { id := "RAD1", text := "fire safety", page := some 1, span := some [0, 1],
          type := "RAD" }
        [("EAD1", { id := "EAD1", text := "fire safety plan", page := some 1,
                    span := some [2, 6], type := "EAD" })]).1 ↔
      ((({ id := "EAD1", text := "fire safety plan", page := some 1, span := some [2, 6],
           type := "EAD" } : Item).page.getD 0 -
          (({ id := "RAD1", text := "fire safety", page := some 1, span := some [0, 1],
              type := "RAD" } : Item).page.getD 0)).natAbs ≤ 1 ∧
        jaccard (pyTokenize "fire safety") (pyTokenize "fire safety plan") ≥ 1 / 20) :=
  claim_C6_evidence_link_iff _ _ "EAD1" _ (by decide) (by decide)

unseal List.mergeSort in
theorem claim_C10_witness :
    ((linkItems c10cat c10lay none).headD default).poDetails =
      ((linkItems c10cat c10lay none).headD default).poLinks.filterMap
        (fun poId => (pyGet (pyDictOfItems c10cat.PO) poId).map (mkPoDetail poId)) :=
  claim_C10_po_details_projection.1 c10cat c10lay none _ (by decide)

/-! ### Schema builder (builder.py) -/

/-- A section dict as the builder reads it (`topics` may have been added
by an enrichment stage; the chunker's sections carry none). -/
structure BSection where
  sectionId : String
  heading : String
  body : String
  titleNumber : Option Int
  titleName : Option String
  chapterNumber : Option Int
  chapterName : Option String
  breadcrumb : String
  topics : List String
deriving Repr, DecidableEq, Inhabited

/-- Python `x or default` for strings (empty string is falsy). -/
def orStr (s d : String) : String := if s = "" then d else s

/-- Python `x or default` for an optional string (`None` and `""` falsy). -/
def orStrOpt (o : Option String) (d : String) : String :=
  match o with
  | none => d
  | some s => if s = "" then d else s

/-- Python `x or default` for an optional int (`None` and `0` falsy). -/
def orInt (v : Option Int) (d : Int) : Int :=
  match v with
  | none => d
  | some x => if x = 0 then d else x

structure Jurisdiction where
  city : String
  state : String
  version : String
  lastUpdated : String
  sourceUrl : String
deriving Repr, DecidableEq, Inhabited

structure WSection where
  sectionId : String
  sectionTitle : String
  breadcrumbs : List String
  topics : List String
  decisionPoints : List DecisionPoint
deriving Repr, DecidableEq, Inhabited

structure WChapter where
  chapterNumber : Int
  chapterName : String
  sections : List WSection
deriving Repr, DecidableEq, Inhabited

structure WTitle where
  titleNumber : Int
  titleName : String
  chapters : List WChapter
deriving Repr, DecidableEq, Inhabited

structure WizardPayload where
  jurisdiction : Jurisdiction
  titles : List WTitle
deriving Repr, DecidableEq, Inhabited

/-- builder._assign_decision_points_to_sections: round-robin distribution
(the index only advances when there is more than one section). -/
def assignDecisionPoints (dps : List DecisionPoint) (sections : List BSection) :
    List (BSection × List DecisionPoint) :=
  let final := dps.foldl
    (fun (st : List (List DecisionPoint) × Nat) dp =>
      (st.1.set st.2 ((st.1.getD st.2 []) ++ [dp]),
       if decide (sections.length > 1) then (st.2 + 1) % sections.length else st.2))
    (sections.map (fun _ => []), 0)
  sections.zip final.1

/-- builder._build_breadcrumbs.  Note the Python operator precedence: the
whole `breadcrumbs or [...]` is the `if` branch, so a falsy stored
breadcrumb yields `[]` even when parts were collected. -/
def buildBreadcrumbsB (meta : BSection) : List String :=
  let parts :=
    (match meta.titleNumber with
     | some n =>
       ["Title " ++ toString n ++
         (match meta.titleName with
          | some s => if s = "" then "" else ": " ++ s
          | none => "")]
     | none => []) ++
    (match meta.chapterNumber with
     | some n =>
       ["Chapter " ++ toString n ++
         (match meta.chapterName with
          | some s => if s = "" then "" else ": " ++ s
          | none => "")]
     | none => []) ++
    (if meta.heading = "" then [] else [meta.heading])
  if meta.breadcrumb = "" then []
  else if parts.isEmpty then [meta.breadcrumb] else parts

structure ChapterEntry where
  chapterNumber : Int
  chapterName : String
  sections : List WSection
deriving Repr, DecidableEq, Inhabited

structure TitleEntry where
  titleNumber : Int
  titleName : String
  chapters : List (Int × ChapterEntry)
deriving Repr, DecidableEq, Inhabited

/-- Python `d.setdefault(k, dflt)` followed by an in-place mutation `f` of
the entry: the existing entry (or the inserted default) is replaced by its
`f`-image, keys keep insertion order. -/
def assocUpdate (d : List (Int × α)) (k : Int) (f : α → α) (dflt : α) : List (Int × α) :=
  if d.any (fun p => p.1 == k) then
    d.map (fun p => if p.1 == k then (p.1, f p.2) else p)
  else d ++ [(k, f dflt)]

/-- One iteration of the `_build_wizard` grouping loop. -/
def wizardStep (titles : List (Int × TitleEntry)) (w : BSection × List DecisionPoint) :
    List (Int × TitleEntry) :=
  let meta := w.1
  let sectionId := orStr meta.sectionId "section-1"
  let titleNumber := orInt meta.titleNumber 1
  let chapterNumber := orInt meta.chapterNumber 1
  let wsec : WSection :=
    { sectionId := sectionId
      sectionTitle := orStr meta.heading sectionId
      breadcrumbs := buildBreadcrumbsB meta
      topics := meta.topics
      decisionPoints := w.2 }
  let chDflt : ChapterEntry :=
    { chapterNumber := chapterNumber
      chapterName := orStrOpt meta.chapterName ("Chapter " ++ toString chapterNumber)
      sections := [] }
  let tDflt : TitleEntry :=
    { titleNumber := titleNumber
      titleName := orStrOpt meta.titleName ("Title " ++ toString titleNumber)
      chapters := [] }
  assocUpdate titles titleNumber
    (fun t =>
      let newChapters := assocUpdate t.chapters chapterNumber
        (fun c => { c with sections := c.sections ++ [wsec] }) chDflt
      { t with chapters := newChapters })
    tDflt

/-- builder._build_wizard: group into the titles dict, then emit titles
and chapters in ascending numeric key order (`sorted(dict.items())`). -/
def buildWizard (assignments : List (BSection × List DecisionPoint))
    (city state version sourceUrl today : String) : WizardPayload :=
  let titles := assignments.foldl wizardStep []
  { jurisdiction :=
      { city := city, state := state, version := version,
        lastUpdated := today, sourceUrl := sourceUrl }
    titles := (titles.mergeSort (fun a b => decide (a.1 ≤ b.1))).map
      (fun t =>
        { titleNumber := t.2.titleNumber
          titleName := t.2.titleName
          chapters := (t.2.chapters.mergeSort (fun a b => decide (a.1 ≤ b.1))).map
            (fun c =>
              { chapterNumber := c.2.chapterNumber
                chapterName := c.2.chapterName
                sections := c.2.sections }) }) }

structure GuidanceBase where
  sectionId : String
  sectionTitle : String
  titleNumber : Int
  titleName : String
  chapterNumber : Int
  chapterName : String
  breadcrumb : String
deriving Repr, DecidableEq, Inhabited

inductive GuidanceEntry where
  | sectionEntry (base : GuidanceBase) (guidance : String)
  | dpEntry (base : GuidanceBase) (questionId : String) (guidance : String)
      (poDetails : List PoDetail) (eadDetails : List EadDetail)
      (sourceRefs : List SourceRef)
deriving Repr, DecidableEq, Inhabited

structure GuidancePayload where
  jurisdiction : Jurisdiction
  guidance : List GuidanceEntry
  catalogSummary : List (String × Nat)
deriving Repr, DecidableEq, Inhabited

def guidanceBaseOf (meta : BSection) : GuidanceBase :=
  let sectionId := orStr meta.sectionId "section-1"
  { sectionId := sectionId
    sectionTitle := orStr meta.heading sectionId
    titleNumber := orInt meta.titleNumber 1
    titleName := orStrOpt meta.titleName ""
    chapterNumber := orInt meta.chapterNumber 1
    chapterName := orStrOpt meta.chapterName ""
    breadcrumb := orStr meta.breadcrumb "" }

/-- builder._build_guidance. -/
def buildGuidance (assignments : List (BSection × List DecisionPoint))
    (catalog : Catalog) (jurisdiction : Jurisdiction) : GuidancePayload :=
  { jurisdiction := jurisdiction
    guidance := assignments.flatMap
      (fun w =>
        let base := guidanceBaseOf w.1
        let sectionBody := pyStrip w.1.body
        (if sectionBody = "" then [] else [GuidanceEntry.sectionEntry base sectionBody]) ++
        w.2.map (fun dp =>
          GuidanceEntry.dpEntry base dp.radId dp.radText dp.poDetails dp.eadDetails
            dp.sourceRefs))
    catalogSummary :=
      [("RAD", catalog.RAD.length), ("PO", catalog.PO.length), ("EAD", catalog.EAD.length)] }

/-- One jsonschema validation error: the error's path and message. -/
structure SchemaErr where
  path : List String
  message : String
deriving Repr, DecidableEq, Inhabited

/-- Lexicographic comparison of error paths (`sorted(..., key=e.path)`). -/
def pathLe : List String → List String → Bool
  | [], _ => true
  | _ :: _, [] => false
  | a :: as, b :: bs => if strLtB a b then true else if strLtB b a then false else pathLe as bs

def renderErr (e : SchemaErr) : String :=
  String.intercalate "/" e.path ++ ": " ++ e.message

/-- builder._validate_wizard.  Modelled from the spec: the wizard JSON
schema file and the `jsonschema` Draft-7 validator are external to `src`,
so the error enumeration `validator.iter_errors(payload)` is a parameter;
the function sorts the errors by path and raises one aggregated error
naming every violating path, or returns silently when there are none. -/
def validateWizard (wErrs : WizardPayload → List SchemaErr) (payload : WizardPayload) :
    Except String Unit :=
  let errors := (wErrs payload).mergeSort (fun a b => pathLe a.path b.path)
  if errors.isEmpty then Except.ok ()
  else
    Except.error ("Wizard payload failed schema validation: " ++
      String.intercalate ", " (errors.map renderErr))

/-- builder.build_outputs (the current UTC date stamp is the `today`
parameter). -/
def buildOutputs (wErrs : WizardPayload → List SchemaErr) (dps : List DecisionPoint)
    (sections : List BSection) (catalog : Catalog)
    (city state version sourceUrl today : String) :
    Except String (WizardPayload × GuidancePayload) :=
  if sections.isEmpty then Except.error "No sections available to build wizard output"
  else
    let assignments := assignDecisionPoints dps sections
    let wizard := buildWizard assignments city state version sourceUrl today
    match validateWizard wErrs wizard with
    | Except.error e => Except.error e
    | Except.ok _ =>
      Except.ok (wizard, buildGuidance assignments catalog wizard.jurisdiction)

/-- Modelled from the spec: the specification requires EVERY payload
(wizard AND guidance) to be schema-checked before being returned; this
variant additionally validates the guidance payload against its own
(parameterized) schema before returning it. -/
def buildOutputsSpec (wErrs : WizardPayload → List SchemaErr)
    (gErrs : GuidancePayload → List SchemaErr) (dps : List DecisionPoint)
    (sections : List BSection) (catalog : Catalog)
    (city state version sourceUrl today : String) :
    Except String (WizardPayload × GuidancePayload) :=
  if sections.isEmpty then Except.error "No sections available to build wizard output"
  else
    let assignments := assignDecisionPoints dps sections
    let wizard := buildWizard assignments city state version sourceUrl today
    match validateWizard wErrs wizard with
    | Except.error e => Except.error e
    | Except.ok _ =>
      let guidance := buildGuidance assignments catalog wizard.jurisdiction
      let gerrors := (gErrs guidance).mergeSort (fun a b => pathLe a.path b.path)
      if gerrors.isEmpty then Except.ok (wizard, guidance)
      else
        Except.error ("Guidance payload failed schema validation: " ++
          String.intercalate ", " (gerrors.map renderErr))

/-! ### Integrity validator (validator.py) -/

structure Issues where
  missingLinks : List String
  danglingRefs : List String
  spanConflicts : List String
  duplicateIds : List String
deriving Repr, DecidableEq, Inhabited

structure Counts where
  rad : Nat
  po : Nat
  ead : Nat
  decisionPoints : Nat
deriving Repr, DecidableEq, Inhabited

structure Report where
  issues : Issues
  counts : Counts
  status : String
deriving Repr, DecidableEq, Inhabited

/-- `sorted(set(xs))`. -/
def sortedSet (l : List String) : List String := (dedupF l).mergeSort strLe

/-- validator._find_duplicates: ids reused across any two catalog items,
in sorted order. -/
def findDuplicates (catalog : Catalog) : List String :=
  ((catalog.RAD ++ catalog.PO ++ catalog.EAD).foldl
    (fun (st : List String × List String) it =>
      if it.id ∈ st.1 then
        (st.1, if it.id ∈ st.2 then st.2 else st.2 ++ [it.id])
      else (st.1 ++ [it.id], st.2))
    ([], [])).2.mergeSort strLe

/-- validator._find_missing_spans: a span that is not a two-element list,
or a missing page (the modelled span is always a list when present, so
the `isinstance` test cannot fail). -/
def findMissingSpans (catalog : Catalog) : List String :=
  [("RAD", catalog.RAD), ("PO", catalog.PO), ("EAD", catalog.EAD)].flatMap
    (fun bucket => bucket.2.flatMap
      (fun it =>
        (if (match it.span with
             | none => true
             | some l => decide (l.length ≠ 2)) then
          [bucket.1 ++ ":" ++ it.id ++ " missing span"]
        else []) ++
        (if it.page.isNone then [bucket.1 ++ ":" ++ it.id ++ " missing page"] else [])))

/-- validator._iter_decision_points. -/
def iterDecisionPoints (w : WizardPayload) : List DecisionPoint :=
  w.titles.flatMap (fun t => t.chapters.flatMap (fun c => c.sections.flatMap
    (fun s => s.decisionPoints)))

/-- The dangling references recorded for one decision point. -/
def danglingOf (radIds poIds eadIds : List String) (dp : DecisionPoint) : List String :=
  (dp.poLinks.filter (fun po => !poIds.contains po)).map (fun po => dp.radId ++ "->" ++ po) ++
  (dp.eadLinks.filter (fun e => !eadIds.contains e)).map (fun e => dp.radId ++ "->" ++ e) ++
  (if radIds.contains dp.radId then [] else ["wizard_rad_missing:" ++ dp.radId])

/-- validator.run_checks. -/
def runChecks (wizard : WizardPayload) (catalog : Catalog) : Report :=
  let radIds := catalog.RAD.map Item.id
  let poIds := catalog.PO.map Item.id
  let eadIds := catalog.EAD.map Item.id
  let dps := iterDecisionPoints wizard
  let missingLinks := dps.foldl
    (fun acc dp =>
      if dp.poLinks.isEmpty && !dp.noPoApplicable then acc ++ [dp.radId] else acc) []
  let danglingRefs := dps.flatMap (danglingOf radIds poIds eadIds)
  let issues : Issues :=
    { missingLinks := sortedSet missingLinks
      danglingRefs := sortedSet danglingRefs
      spanConflicts := findMissingSpans catalog
      duplicateIds := findDuplicates catalog }
  { issues := issues
    counts :=
      { rad := (dedupF radIds).length
        po := (dedupF poIds).length
        ead := (dedupF eadIds).length
        decisionPoints := dps.length }
    status :=
      if issues.missingLinks.isEmpty && issues.danglingRefs.isEmpty &&
          issues.spanConflicts.isEmpty && issues.duplicateIds.isEmpty then "ok"
      else "issues_detected" }

/-! ### Helper lemmas about the builder and validator -/

lemma buildOutputs_ok (wErrs : WizardPayload → List SchemaErr) (dps : List DecisionPoint)
    (sections : List BSection) (catalog : Catalog)
    (city state version sourceUrl today : String) (hs : sections ≠ [])
    (hw : wErrs (buildWizard (assignDecisionPoints dps sections) city state version
      sourceUrl today) = []) :
    buildOutputs wErrs dps sections catalog city state version sourceUrl today =
      Except.ok
        (buildWizard (assignDecisionPoints dps sections) city state version sourceUrl today,
         buildGuidance (assignDecisionPoints dps sections) catalog
           (buildWizard (assignDecisionPoints dps sections) city state version sourceUrl
             today).jurisdiction) := by
  have hne : sections.isEmpty = false := by
    cases sections with
    | nil => exact absurd rfl hs
    | cons a l => rfl
  rw [buildOutputs]
  simp only [hne, Bool.false_eq_true, if_false]
  rw [validateWizard.eq_def, hw]
  simp

lemma buildOutputs_error (wErrs : WizardPayload → List SchemaErr) (dps : List DecisionPoint)
    (sections : List BSection) (catalog : Catalog)
    (city state version sourceUrl today : String) (hs : sections ≠ [])
    (hw : wErrs (buildWizard (assignDecisionPoints dps sections) city state version
      sourceUrl today) ≠ []) :
    buildOutputs wErrs dps sections catalog city state version sourceUrl today =
      Except.error ("Wizard payload failed schema validation: " ++
        String.intercalate ", "
          (((wErrs (buildWizard (assignDecisionPoints dps sections) city state version
              sourceUrl today)).mergeSort (fun a b => pathLe a.path b.path)).map
            renderErr)) := by
  have hne : sections.isEmpty = false := by
    cases sections with
    | nil => exact absurd rfl hs
    | cons a l => rfl
  rw [buildOutputs]
  simp only [hne, Bool.false_eq_true, if_false]
  rw [validateWizard.eq_def]
  have hlen : ((wErrs (buildWizard (assignDecisionPoints dps sections) city state version
      sourceUrl today)).mergeSort (fun a b => pathLe a.path b.path)).isEmpty = false := by
    rw [← Bool.not_eq_true, List.isEmpty_iff]
    intro h
    apply hw
    have := (List.mergeSort_perm (wErrs (buildWizard (assignDecisionPoints dps sections)
      city state version sourceUrl today)) (fun a b => pathLe a.path b.path)).symm
    rw [h] at this
    exact this.symm.nil_eq.symm
  simp only [hlen, Bool.false_eq_true, if_false]

lemma mem_assocUpdate {α : Type} (d : List (Int × α)) (k : Int) (f : α → α) (dflt : α)
    (pr : Int × α) (h : pr ∈ assocUpdate d k f dflt) :
    pr ∈ d ∨ (∃ q ∈ d, pr = (q.1, f q.2)) ∨ pr = (k, f dflt) := by
  rw [assocUpdate] at h
  by_cases hany : d.any (fun p => p.1 == k)
  · rw [if_pos hany] at h
    obtain ⟨q, hq, he⟩ := List.mem_map.mp h
    by_cases hk : q.1 == k
    · rw [if_pos hk] at he
      exact Or.inr (Or.inl ⟨q, hq, he.symm⟩)
    · rw [if_neg hk] at he
      exact Or.inl (he ▸ hq)
  · rw [if_neg hany] at h
    rcases List.mem_append.mp h with h' | h'
    · exact Or.inl h'
    · exact Or.inr (Or.inr (List.mem_singleton.mp h'))

/-- The per-decision-point invariant carried through the wizard tree. -/
def TitlesP (P : DecisionPoint → Prop) (titles : List (Int × TitleEntry)) : Prop :=
  ∀ pr ∈ titles, ∀ cpr ∈ pr.2.chapters, ∀ s ∈ cpr.2.sections,
    ∀ dp ∈ s.decisionPoints, P dp

lemma wizardStep_inv (P : DecisionPoint → Prop) (titles : List (Int × TitleEntry))
    (w : BSection × List DecisionPoint) (hT : TitlesP P titles)
    (hw : ∀ dp ∈ w.2, P dp) : TitlesP P (wizardStep titles w) := by
  intro pr hpr cpr hcpr s hs dp hdp
  rw [wizardStep] at hpr
  have sections_case :
      ∀ (chs : List (Int × ChapterEntry)), (∀ cpr₀ ∈ chs, ∀ s₀ ∈ cpr₀.2.sections,
          ∀ dp₀ ∈ s₀.decisionPoints, P dp₀) →
        ∀ cpr₁ ∈ (assocUpdate chs (orInt w.1.chapterNumber 1)
            (fun c => { c with sections := c.sections ++
              [{ sectionId := orStr w.1.sectionId "section-1"
                 sectionTitle := orStr w.1.heading (orStr w.1.sectionId "section-1")
                 breadcrumbs := buildBreadcrumbsB w.1
                 topics := w.1.topics
                 decisionPoints := w.2 }] })
            { chapterNumber := orInt w.1.chapterNumber 1
              chapterName := orStrOpt w.1.chapterName
                ("Chapter " ++ toString (orInt w.1.chapterNumber 1))
              sections := [] }),
          ∀ s₁ ∈ cpr₁.2.sections, ∀ dp₁ ∈ s₁.decisionPoints, P dp₁ := by
    intro chs ht cpr₁ hcpr₁ s₁ hs₁ dp₁ hdp₁
    rcases mem_assocUpdate _ _ _ _ _ hcpr₁ with hold | ⟨q, hq, he⟩ | he
    · exact ht cpr₁ hold s₁ hs₁ dp₁ hdp₁
    · subst he
      simp only at hs₁
      rcases List.mem_append.mp hs₁ with hs' | hs'
      · exact ht q hq s₁ hs' dp₁ hdp₁
      · rw [List.mem_singleton.mp hs'] at hdp₁
        exact hw dp₁ hdp₁
    · subst he
      simp only [List.nil_append] at hs₁
      rw [List.mem_singleton.mp hs₁] at hdp₁
      exact hw dp₁ hdp₁
  rcases mem_assocUpdate _ _ _ _ _ hpr with hold | ⟨q, hq, he⟩ | he
  · exact hT pr hold cpr hcpr s hs dp hdp
  · subst he
    exact sections_case q.2.chapters (hT q hq) cpr hcpr s hs dp hdp
  · subst he
    exact sections_case [] (fun cpr₀ hcpr₀ => absurd hcpr₀ (List.not_mem_nil _))
      cpr hcpr s hs dp hdp

lemma buildWizard_fold_inv (P : DecisionPoint → Prop) :
    ∀ (assignments : List (BSection × List DecisionPoint))
      (titles : List (Int × TitleEntry)), TitlesP P titles →
      (∀ w ∈ assignments, ∀ dp ∈ w.2, P dp) →
      TitlesP P (assignments.foldl wizardStep titles) := by
  intro assignments
  induction assignments with
  | nil => intro titles hT _; exact hT
  | cons w rest ih =>
    intro titles hT hA
    rw [List.foldl_cons]
    exact ih _ (wizardStep_inv P titles w hT (hA w (List.mem_cons_self _ _)))
      (fun w' hw' => hA w' (List.mem_cons_of_mem _ hw'))

lemma iter_buildWizard (P : DecisionPoint → Prop)
    (assignments : List (BSection × List DecisionPoint))
    (city state version sourceUrl today : String)
    (hA : ∀ w ∈ assignments, ∀ dp ∈ w.2, P dp) :
    ∀ dp ∈ iterDecisionPoints
      (buildWizard assignments city state version sourceUrl today), P dp := by
  intro dp hdp
  have hfold := buildWizard_fold_inv P assignments []
    (fun pr hpr => absurd hpr (List.not_mem_nil _)) hA
  rw [iterDecisionPoints, buildWizard] at hdp
  simp only [List.mem_flatMap, List.mem_map] at hdp
  obtain ⟨wt, ⟨⟨pr, hpr, hprw⟩, ⟨wc, hwc, ⟨ws, hws, hdp'⟩⟩⟩⟩ := hdp
  rw [← hprw] at hwc
  simp only [List.mem_map] at hwc
  obtain ⟨cpr, hcpr, hcw⟩ := hwc
  rw [← hcw] at hws
  simp only at hws
  exact hfold pr (List.mem_mergeSort.mp hpr) cpr (List.mem_mergeSort.mp hcpr) ws hws dp hdp'

lemma assign_fold_inv (P : DecisionPoint → Prop) :
    ∀ (dps : List DecisionPoint) (sections : List BSection)
      (st : List (List DecisionPoint) × Nat),
      (∀ l ∈ st.1, ∀ x ∈ l, P x) → (∀ dp ∈ dps, P dp) →
      ∀ l ∈ (dps.foldl
        (fun (st : List (List DecisionPoint) × Nat) dp =>
          (st.1.set st.2 ((st.1.getD st.2 []) ++ [dp]),
           if decide (sections.length > 1) then (st.2 + 1) % sections.length else st.2))
        st).1, ∀ x ∈ l, P x := by
  intro dps
  induction dps with
  | nil => intro sections st hst _ l hl x hx; exact hst l hl x hx
  | cons dp rest ih =>
    intro sections st hst hd
    rw [List.foldl_cons]
    refine ih sections _ ?_ (fun d hd' => hd d (List.mem_cons_of_mem _ hd'))
    intro l hl x hx
    rcases List.mem_or_eq_of_mem_set hl with hl' | rfl
    · exact hst l hl' x hx
    · rcases List.mem_append.mp hx with hx' | hx'
      · rw [List.getD] at hx'
        cases hget : st.1.get? st.2 with
        | none => rw [hget] at hx'; exact absurd hx' (List.not_mem_nil _)
        | some v =>
          rw [hget] at hx'
          exact hst v (List.get?_mem hget) x hx'
      · rw [List.mem_singleton.mp hx']
        exact hd dp (List.mem_cons_self _ _)

lemma assign_dp_mem (dps : List DecisionPoint) (sections : List BSection)
    (w : BSection × List DecisionPoint) (hw : w ∈ assignDecisionPoints dps sections) :
    ∀ dp ∈ w.2, dp ∈ dps := by
  intro dp hdp
  rw [assignDecisionPoints] at hw
  have hin := (List.of_mem_zip hw).2
  exact assign_fold_inv (fun x => x ∈ dps) dps sections (sections.map (fun _ => []), 0)
    (by
      intro l hl x hx
      obtain ⟨_, _, he⟩ := List.mem_map.mp hl
      rw [← he] at hx
      exact absurd hx (List.not_mem_nil _))
    (fun d hd => hd) w.2 hin dp hdp

lemma pyDictInsert_keys (d : List (String × Item)) (k : String) (v : Item) :
    ∀ p ∈ pyDictInsert d k v, p.1 = k ∨ p.1 ∈ d.map Prod.fst := by
  intro p hp
  rw [pyDictInsert] at hp
  by_cases hany : d.any (fun q => q.1 == k)
  · rw [if_pos hany] at hp
    obtain ⟨q, hq, he⟩ := List.mem_map.mp hp
    by_cases hk : q.1 == k
    · rw [if_pos hk] at he
      exact Or.inl (by rw [← he])
    · rw [if_neg hk] at he
      exact Or.inr (List.mem_map.mpr ⟨q, hq, by rw [← he]⟩)
  · rw [if_neg hany] at hp
    rcases List.mem_append.mp hp with h' | h'
    · exact Or.inr (List.mem_map.mpr ⟨p, h', rfl⟩)
    · exact Or.inl (by rw [List.mem_singleton.mp h'])

lemma pyDictFold_keys (P : String → Prop) :
    ∀ (items : List Item) (d : List (String × Item)),
      (∀ q ∈ d, P q.1) → (∀ it ∈ items, P it.id) →
      ∀ p ∈ items.foldl (fun d it => pyDictInsert d it.id it) d, P p.1 := by
  intro items
  induction items with
  | nil => intro d hd _ p hp; exact hd p hp
  | cons it rest ih =>
    intro d hd hi
    rw [List.foldl_cons]
    refine ih _ ?_ (fun x hx => hi x (List.mem_cons_of_mem _ hx))
    intro q hq
    rcases pyDictInsert_keys d it.id it q hq with he | hk
    · rw [he]
      exact hi it (List.mem_cons_self _ _)
    · obtain ⟨r, hr, he⟩ := List.mem_map.mp hk
      exact he ▸ hd r hr

lemma pyDictOfItems_keys (items : List Item) :
    ∀ p ∈ pyDictOfItems items, p.1 ∈ items.map Item.id := by
  intro p hp
  exact pyDictFold_keys (fun k => k ∈ items.map Item.id) items []
    (fun q hq => absurd hq (List.not_mem_nil _))
    (fun it hit => List.mem_map.mpr ⟨it, hit, rfl⟩) p hp

lemma dict_key_sub (items : List Item) :
    ∀ k ∈ (pyDictOfItems items).map Prod.fst, k ∈ items.map Item.id := by
  intro k hk
  obtain ⟨p, hp, he⟩ := List.mem_map.mp hk
  exact he ▸ pyDictOfItems_keys items p hp

lemma findNearbyPo_subset (radItem : Item) (poItems : List (String × Item)) :
    ∀ id ∈ findNearbyPo radItem poItems, id ∈ poItems.map Prod.fst := by
  intro id hid
  rw [findNearbyPo] at hid
  obtain ⟨p, hp, he⟩ := List.mem_map.mp (List.mem_mergeSort.mp hid)
  exact List.mem_map.mpr ⟨p, (List.mem_filter.mp hp).1, he⟩

lemma findRelatedEad_subset (radItem : Item) (eadItems : List (String × Item)) :
    ∀ id ∈ (findRelatedEad radItem eadItems).1, id ∈ eadItems.map Prod.fst := by
  intro id hid
  rw [findRelatedEad] at hid
  by_cases he : eadItems.isEmpty
  · rw [if_pos he] at hid
    exact absurd hid (List.not_mem_nil _)
  · rw [if_neg he, eadStep_fold] at hid
    simp only [List.nil_append] at hid
    obtain ⟨p, hp, hpe⟩ := List.mem_map.mp hid
    exact List.mem_map.mpr ⟨p, (List.mem_filter.mp hp).1, hpe⟩

lemma linkItems_dp_facts (catalog : Catalog) (layout : Layout)
    (rtab : Option (List (String × List String)))
    (htab : ∀ p ∈ pyDictOfItems catalog.RAD,
      ∀ po ∈ (pyGet (rtab.getD (parseCorrespondenceTable layout)) p.1).getD [],
        po ∈ catalog.PO.map Item.id) :
    ∀ dp ∈ linkItems catalog layout rtab,
      (∀ po ∈ dp.poLinks, po ∈ catalog.PO.map Item.id) ∧
      (∀ e ∈ dp.eadLinks, e ∈ catalog.EAD.map Item.id) ∧
      dp.radId ∈ catalog.RAD.map Item.id ∧
      (dp.poLinks.isEmpty && !dp.noPoApplicable) = false := by
  intro dp hdp
  obtain ⟨p, hp, rfl⟩ := linkItems_mem catalog layout rtab dp hdp
  refine ⟨?_, ?_, ?_, ?_⟩
  · intro po hpo
    simp only [mkDecisionPoint] at hpo
    by_cases h₁ : ((pyGet (rtab.getD (parseCorrespondenceTable layout)) p.1).getD []).isEmpty
    · simp only [h₁, if_true] at hpo
      by_cases h₂ : (findNearbyPo p.2 (pyDictOfItems catalog.PO)).isEmpty
      · simp only [h₂, if_true] at hpo
        obtain ⟨it, hit, _⟩ := mem_similarPo _ _ po hpo
        have : po ∈ (pyDictOfItems catalog.PO).map Prod.fst :=
          List.mem_map.mpr ⟨(po, it), hit, rfl⟩
        exact dict_key_sub _ _ this
      · simp only [h₂, Bool.false_eq_true, if_false] at hpo
        exact dict_key_sub _ _ (findNearbyPo_subset _ _ po hpo)
    · simp only [h₁, Bool.false_eq_true, if_false] at hpo
      exact htab p hp po hpo
  · intro e he
    simp only [mkDecisionPoint] at he
    exact dict_key_sub _ _ (findRelatedEad_subset _ _ e he)
  · exact pyDictOfItems_keys _ p hp
  · simp only [mkDecisionPoint]
    by_cases h : (if
        (if ((pyGet (rtab.getD (parseCorrespondenceTable layout)) p.1).getD []).isEmpty then
          findNearbyPo p.2 (pyDictOfItems catalog.PO)
        else (pyGet (rtab.getD (parseCorrespondenceTable layout)) p.1).getD []).isEmpty then
        similarPo p.2.text (pyDictOfItems catalog.PO)
      else
        if ((pyGet (rtab.getD (parseCorrespondenceTable layout)) p.1).getD []).isEmpty then
          findNearbyPo p.2 (pyDictOfItems catalog.PO)
        else (pyGet (rtab.getD (parseCorrespondenceTable layout)) p.1).getD []).isEmpty
    · simp [h]
    · simp [h]

lemma missingLinks_fold_nil (dps : List DecisionPoint)
    (h : ∀ dp ∈ dps, (dp.poLinks.isEmpty && !dp.noPoApplicable) = false) :
    ∀ acc : List String,
      dps.foldl
        (fun acc dp =>
          if dp.poLinks.isEmpty && !dp.noPoApplicable then acc ++ [dp.radId] else acc)
        acc = acc := by
  induction dps with
  | nil => intro acc; rfl
  | cons dp rest ih =>
    intro acc
    rw [List.foldl_cons, if_neg]
    · exact ih (fun d hd => h d (List.mem_cons_of_mem _ hd)) acc
    · rw [h dp (List.mem_cons_self _ _)]
      exact Bool.false_ne_true

lemma danglingOf_nil (radIds poIds eadIds : List String) (dp : DecisionPoint)
    (h1 : ∀ po ∈ dp.poLinks, po ∈ poIds) (h2 : ∀ e ∈ dp.eadLinks, e ∈ eadIds)
    (h3 : dp.radId ∈ radIds) : danglingOf radIds poIds eadIds dp = [] := by
  rw [danglingOf]
  have hf1 : dp.poLinks.filter (fun po => !poIds.contains po) = [] := by
    rw [List.filter_eq_nil_iff]
    intro po hpo
    simp only [Bool.not_eq_true', Bool.not_eq_false]
    exact List.elem_eq_true_of_mem (h1 po hpo)
  have hf2 : dp.eadLinks.filter (fun e => !eadIds.contains e) = [] := by
    rw [List.filter_eq_nil_iff]
    intro e he
    simp only [Bool.not_eq_true', Bool.not_eq_false]
    exact List.elem_eq_true_of_mem (h2 e he)
  rw [hf1, hf2, if_pos (List.elem_eq_true_of_mem h3)]
  rfl

lemma findDuplicates_fold_nil (items : List Item) :
    ∀ seen : List String, (items.map Item.id).Nodup → (∀ it ∈ items, it.id ∉ seen) →
      (items.foldl
        (fun (st : List String × List String) it =>
          if it.id ∈ st.1 then
            (st.1, if it.id ∈ st.2 then st.2 else st.2 ++ [it.id])
          else (st.1 ++ [it.id], st.2))
        (seen, [])).2 = [] := by
  induction items with
  | nil => intro seen _ _; rfl
  | cons it rest ih =>
    intro seen hnd hdisj
    rw [List.foldl_cons, if_neg (hdisj it (List.mem_cons_self _ _))]
    rw [List.map_cons, List.nodup_cons] at hnd
    refine ih (seen ++ [it.id]) hnd.2 ?_
    intro x hx hmem
    rcases List.mem_append.mp hmem with h' | h'
    · exact hdisj x (List.mem_cons_of_mem _ hx) h'
    · exact hnd.1 (List.mem_singleton.mp h' ▸ List.mem_map.mpr ⟨x, hx, rfl⟩)

lemma findDuplicates_nil (catalog : Catalog)
    (hdup : ((catalog.RAD ++ catalog.PO ++ catalog.EAD).map Item.id).Nodup) :
    findDuplicates catalog = [] := by
  rw [findDuplicates, findDuplicates_fold_nil _ [] hdup
    (fun it _ h => absurd h (List.not_mem_nil _))]
  simp

lemma findMissingSpans_nil (catalog : Catalog)
    (hspan : ∀ it ∈ catalog.RAD ++ catalog.PO ++ catalog.EAD,
      (∃ l, it.span = some l ∧ l.length = 2) ∧ it.page ≠ none) :
    findMissingSpans catalog = [] := by
  rw [findMissingSpans]
  have hbucket : ∀ (t : String) (items : List Item),
      (∀ it ∈ items, (∃ l, it.span = some l ∧ l.length = 2) ∧ it.page ≠ none) →
      items.flatMap
        (fun it =>
          (if (match it.span with
               | none => true
               | some l => decide (l.length ≠ 2)) then
            [t ++ ":" ++ it.id ++ " missing span"]
          else []) ++
          (if it.page.isNone then [t ++ ":" ++ it.id ++ " missing page"] else [])) = [] := by
    intro t items hit
    induction items with
    | nil => rfl
    | cons it rest ih =>
      rw [List.flatMap_cons, ih (fun x hx => hit x (List.mem_cons_of_mem _ hx))]
      obtain ⟨⟨l, hl, hl2⟩, hpage⟩ := hit it (List.mem_cons_self _ _)
      rw [hl]
      have h2 : decide (l.length ≠ 2) = false := by
        simp [hl2]
      have hpn : it.page.isNone = false := by
        cases hpg : it.page with
        | none => exact absurd hpg hpage
        | some v => rfl
      simp [h2, hpn]
  rw [List.flatMap_cons, List.flatMap_cons, List.flatMap_cons]
  rw [hbucket "RAD" catalog.RAD (fun it hx => hspan it (by simp [hx])),
    hbucket "PO" catalog.PO (fun it hx => hspan it (by simp [hx])),
    hbucket "EAD" catalog.EAD (fun it hx => hspan it (by simp [hx]))]
  rfl

lemma sortedSet_nil : sortedSet [] = [] := by
  rw [sortedSet]
  simp [dedupF, dedupFirstAux]

lemma runChecks_ok (wizard : WizardPayload) (catalog : Catalog)
    (hml : ∀ dp ∈ iterDecisionPoints wizard,
      (dp.poLinks.isEmpty && !dp.noPoApplicable) = false)
    (hdg : ∀ dp ∈ iterDecisionPoints wizard,
      danglingOf (catalog.RAD.map Item.id) (catalog.PO.map Item.id)
        (catalog.EAD.map Item.id) dp = [])
    (hsp : findMissingSpans catalog = [])
    (hdp : findDuplicates catalog = []) :
    (runChecks wizard catalog).status = "ok" := by
  have hfl : (iterDecisionPoints wizard).flatMap
      (danglingOf (catalog.RAD.map Item.id) (catalog.PO.map Item.id)
        (catalog.EAD.map Item.id)) = [] :=
    List.flatMap_eq_nil_iff.mpr hdg
  rw [runChecks]
  simp only [missingLinks_fold_nil _ hml, hfl, hsp, hdp, sortedSet_nil, List.isEmpty_nil,
    Bool.and_self, if_true]

/-! ### C9: empty sections abort the build -/

/-- C9: calling build_outputs with an empty sections sequence raises the
error before any payload is produced; no partial wizard or guidance
payload is emitted. -/
theorem claim_C9_empty_sections_abort (wErrs : WizardPayload → List SchemaErr)
    (dps : List DecisionPoint) (catalog : Catalog)
    (city state version sourceUrl today : String) :
    buildOutputs wErrs dps [] catalog city state version sourceUrl today =
      Except.error "No sections available to build wizard output" := rfl

/-! ### C2: schema validation covers only the wizard payload -/

def c2sec : BSection :=
  { sectionId := "1.1.1", heading := "Section 1.1.1 First", body := "body",
    titleNumber := some 1, titleName := none, chapterNumber := some 1,
    chapterName := none, breadcrumb := "bc", topics := [] }

def c2cat : Catalog := { RAD := [], PO := [], EAD := [] }

unseal List.mergeSort in
/-- C2 counterexample: with a guidance-schema checker that rejects every
guidance payload, the source build_outputs still succeeds (it never
consults any guidance schema), while the spec-modelled variant that checks
both payloads fails — so not every payload is schema-checked before being
returned. -/
theorem claim_C2_counterexample :
    (buildOutputs (fun _ => []) [] [c2sec] c2cat "c" "s" "v" "u" "d").isOk = true
    ∧ (buildOutputsSpec (fun _ => [])
        (fun _ => [{ path := ["guidance"], message := "violation" }]) [] [c2sec] c2cat
        "c" "s" "v" "u" "d").isOk = false := by
  constructor
  · decide
  · decide

/-- C2 as amended: only the wizard payload is checked against its schema
before being returned — when the wizard check passes, the guidance payload
is returned with no check of its own — and a wizard schema violation
raises a single aggregated error whose message joins one rendered entry
(path and message) for every violating error. -/
theorem claim_C2_amended (wErrs : WizardPayload → List SchemaErr)
    (dps : List DecisionPoint) (sections : List BSection) (catalog : Catalog)
    (city state version sourceUrl today : String) (hs : sections ≠ []) :
    (wErrs (buildWizard (assignDecisionPoints dps sections) city state version sourceUrl
        today) = [] →
      buildOutputs wErrs dps sections catalog city state version sourceUrl today =
        Except.ok
          (buildWizard (assignDecisionPoints dps sections) city state version sourceUrl
            today,
           buildGuidance (assignDecisionPoints dps sections) catalog
             (buildWizard (assignDecisionPoints dps sections) city state version sourceUrl
               today).jurisdiction))
    ∧ (wErrs (buildWizard (assignDecisionPoints dps sections) city state version sourceUrl
        today) ≠ [] →
      ∃ parts : List String,
        buildOutputs wErrs dps sections catalog city state version sourceUrl today =
          Except.error ("Wizard payload failed schema validation: " ++
            String.intercalate ", " parts) ∧
        parts.length = (wErrs (buildWizard (assignDecisionPoints dps sections) city state
          version sourceUrl today)).length ∧
        ∀ e ∈ wErrs (buildWizard (assignDecisionPoints dps sections) city state version
          sourceUrl today), renderErr e ∈ parts) := by
  constructor
  · intro h0
    exact buildOutputs_ok wErrs dps sections catalog city state version sourceUrl today
      hs h0
  · intro hne
    refine ⟨((wErrs (buildWizard (assignDecisionPoints dps sections) city state version
      sourceUrl today)).mergeSort (fun a b => pathLe a.path b.path)).map renderErr,
      ?_, ?_, ?_⟩
    · exact buildOutputs_error wErrs dps sections catalog city state version sourceUrl
        today hs hne
    · rw [List.length_map, List.length_mergeSort]
    · intro e he
      exact List.mem_map.mpr ⟨e, List.mem_mergeSort.mpr he, rfl⟩

theorem claim_C2_witness :
    (buildOutputs (fun _ => []) [] [c2sec] c2cat "c" "s" "v" "u" "d" =
      Except.ok
        (buildWizard (assignDecisionPoints [] [c2sec]) "c" "s" "v" "u" "d",
         buildGuidance (assignDecisionPoints [] [c2sec]) c2cat
           (buildWizard (assignDecisionPoints [] [c2sec]) "c" "s" "v" "u" "d").jurisdiction))
    ∧ ∃ parts : List String,
        buildOutputs
            (fun _ => [{ path := ["titles"], message := "badA" },
                       { path := [], message := "badB" }])
            [] [c2sec] c2cat "c" "s" "v" "u" "d" =
          Except.error ("Wizard payload failed schema validation: " ++
            String.intercalate ", " parts) ∧
        parts.length =
          ((fun (_ : WizardPayload) =>
            [({ path := ["titles"], message := "badA" } : SchemaErr),
             { path := [], message := "badB" }])
            (buildWizard (assignDecisionPoints [] [c2sec]) "c" "s" "v" "u" "d")).length ∧
        ∀ e ∈ (fun (_ : WizardPayload) =>
            [({ path := ["titles"], message := "badA" } : SchemaErr),
             { path := [], message := "badB" }])
            (buildWizard (assignDecisionPoints [] [c2sec]) "c" "s" "v" "u" "d"),
          renderErr e ∈ parts :=
  ⟨(claim_C2_amended (fun _ => []) [] [c2sec] c2cat "c" "s" "v" "u" "d"
      (by decide)).1 rfl,
   (claim_C2_amended
      (fun _ => [{ path := ["titles"], message := "badA" },
                 { path := [], message := "badB" }])
      [] [c2sec] c2cat "c" "s" "v" "u" "d" (by decide)).2 (by decide)⟩

/-! ### C1: build-then-validate round trip -/

def c1cat : Catalog :=
  { RAD := [{ id := "RAD1", text := "RAD1 text", page := some 1,
              span := some [0, 4], type := "RAD" }]
    PO := []
    EAD := [] }

def c1lay : Layout :=
  { pages := [{ pageNumber := 1,
                blocks := [{ text := "Corresponding PO" }, { text := "PO9" },
                           { text := "RAD1 body" }] }] }

def c1sec : BSection :=
  { sectionId := "1.1.1", heading := "Section 1.1.1 First", body := "body",
    titleNumber := some 1, titleName := none, chapterNumber := some 1,
    chapterName := none, breadcrumb := "bc", topics := [] }

unseal List.mergeSort in
/-- C1 counterexample: a correspondence table can hand the linker an
outcome id that is absent from the very catalog the table was parsed
alongside; building from the resulting decision points and validating
against that same catalog then reports a dangling reference and status
"issues_detected", not "ok". -/
theorem claim_C1_counterexample :
    ((buildOutputs (fun _ => []) (linkItems c1cat c1lay none) [c1sec] c1cat
        "c" "s" "v" "u" "d").map (fun pr => (runChecks pr.1 c1cat).status)).toOption =
      some "issues_detected"
    ∧ ((buildOutputs (fun _ => []) (linkItems c1cat c1lay none) [c1sec] c1cat
        "c" "s" "v" "u" "d").map
          (fun pr => (runChecks pr.1 c1cat).issues.danglingRefs)).toOption =
      some ["RAD1->PO9"] := by
  constructor
  · decide
  · decide

/-- C1 as amended: building the wizard payload from linker-produced
decision points and validating against the same catalog yields status
"ok", provided the wizard schema check passes, every catalog item carries
a two-element span and a page, no id is shared between two catalog items,
and every outcome id the correspondence table (or the supplied override
table) assigns to a cataloged requirement exists in the PO bucket. -/
theorem claim_C1_amended (catalog : Catalog) (layout : Layout)
    (rtab : Option (List (String × List String))) (sections : List BSection)
    (wErrs : WizardPayload → List SchemaErr) (city state version sourceUrl today : String)
    (hs : sections ≠ []) (hw : ∀ w, wErrs w = [])
    (hspan : ∀ it ∈ catalog.RAD ++ catalog.PO ++ catalog.EAD,
      (∃ l, it.span = some l ∧ l.length = 2) ∧ it.page ≠ none)
    (hdup : ((catalog.RAD ++ catalog.PO ++ catalog.EAD).map Item.id).Nodup)
    (htab : ∀ p ∈ pyDictOfItems catalog.RAD,
      ∀ po ∈ (pyGet (rtab.getD (parseCorrespondenceTable layout)) p.1).getD [],
        po ∈ catalog.PO.map Item.id) :
    (buildOutputs wErrs (linkItems catalog layout rtab) sections catalog city state
        version sourceUrl today).map (fun pr => (runChecks pr.1 catalog).status) =
      Except.ok "ok" := by
  rw [buildOutputs_ok wErrs (linkItems catalog layout rtab) sections catalog city state
    version sourceUrl today hs (hw _)]
  have hiter : ∀ dp ∈ iterDecisionPoints
      (buildWizard (assignDecisionPoints (linkItems catalog layout rtab) sections) city
        state version sourceUrl today),
      dp ∈ linkItems catalog layout rtab := by
    intro dp hdp
    exact iter_buildWizard (fun d => d ∈ linkItems catalog layout rtab)
      (assignDecisionPoints (linkItems catalog layout rtab) sections)
      city state version sourceUrl today
      (fun w hw' d hd => assign_dp_mem _ sections w hw' d hd) dp hdp
  have hok := runChecks_ok
    (buildWizard (assignDecisionPoints (linkItems catalog layout rtab) sections) city
      state version sourceUrl today) catalog
    (fun dp hdp => (linkItems_dp_facts catalog layout rtab htab dp (hiter dp hdp)).2.2.2)
    (fun dp hdp =>
      danglingOf_nil _ _ _ dp
        (linkItems_dp_facts catalog layout rtab htab dp (hiter dp hdp)).1
        (linkItems_dp_facts catalog layout rtab htab dp (hiter dp hdp)).2.1
        (linkItems_dp_facts catalog layout rtab htab dp (hiter dp hdp)).2.2.1)
    (findMissingSpans_nil catalog hspan)
    (findDuplicates_nil catalog hdup)
  rw [Except.map, hok]

def c1okCat : Catalog :=
  { RAD := [{ id := "RAD1", text := "fire safety", page := some 1,
              span := some [0, 4], type := "RAD" }]
    PO := [{ id := "PO1", text := "fire exits", page := some 1,
             span := some [5, 8], type := "PO" }]
    EAD := [] }

unseal List.mergeSort in
theorem claim_C1_witness :
    (buildOutputs (fun _ => []) (linkItems c1okCat { pages := [] } none) [c1sec] c1okCat
        "c" "s" "v" "u" "d").map (fun pr => (runChecks pr.1 c1okCat).status) =
      Except.ok "ok" :=
  claim_C1_amended c1okCat { pages := [] } none [c1sec] (fun _ => []) "c" "s" "v" "u" "d"
    (by decide) (fun w => rfl) (by decide) (by decide) (by decide)

end CityCode
